import Mathlib

/-!
Verification model of `src/services/sql.js` (data-access layer of the
repository): statement cache, row helpers, chunked query executor and the
implicit transaction coordinator.

Modelling conventions:
* The module-level mutable environment (`dbConnection`, `statementCache`,
  the CLS flags `isTransactional` / `isInTransaction`, the log sink and the
  engine) is a single explicit state `St`, threaded through every function.
* Engine interactions are recorded as events (`Ev`) in an append-only trace;
  the engine itself is an oracle `db : String → Params → List Row` stored in
  the state (rows returned by `.all`; `.get` returns the first row).
  `.run` returns the engine row id (`St.rowid`).
* JS exceptions are modelled with `Except Err`; a JS function that can throw
  returns `Except Err α × St` (the state at the moment of the throw is kept,
  matching mutations already performed).
* Wall-clock timing in `wrap` is modelled as instantaneous (duration 0ms),
  so the slow-query branch (>= 300ms) never fires; no claim concerns it.
* JS `undefined` results are modelled with `Option`/`Unit` as noted at each
  definition.
-/

namespace TriliumSql

/-- A JS value as it appears in records, parameters and rows. -/
inductive Val where
  | null
  | num (n : Int)
  | str (s : String)
  | bool (b : Bool)
deriving DecidableEq, Repr

/-- A row returned by the engine: a JS object, i.e. an ordered list of
(column name, value) pairs. -/
abbrev Row := List (String × Val)

/-- Parameters bound to a statement: either a positional array or a JS
object of named parameters (better-sqlite3 accepts both). -/
inductive Params where
  | positional (vs : List Val)
  | named (kvs : List (String × Val))
deriving DecidableEq, Repr

/-- An observable effect of the module: engine calls, log lines, and the
post-commit client notification. -/
inductive Ev where
  /-- `dbConnection.prepare(sql)` (a compile by the engine). -/
  | prepare (sql : String)
  /-- `stmt(sql).run(params)`; `BEGIN`/`COMMIT`/`ROLLBACK` are issued via
  `.run()` with no arguments, recorded with empty positional params. -/
  | run (sql : String) (ps : Params)
  /-- `stmt(sql).get(params)`. -/
  | get (sql : String) (ps : Params)
  /-- `stmt(sql).all(params)`. -/
  | all (sql : String) (ps : Params)
  /-- `dbConnection.run(query, params)` (used only by
  `executeWithoutTransaction`). -/
  | connRun (sql : String) (ps : Params)
  /-- `log.error(msg)`. Stack traces appended by `wrap` are not modelled;
  the message recorded there is the fixed prefix of the real one. -/
  | logError (msg : String)
  /-- `log.info(msg)`. -/
  | logInfo (msg : String)
  /-- `require('./ws.js').sendPingToAllClients()`. -/
  | ping
deriving DecidableEq, Repr

/-- A JS error escaping one of the module's functions. -/
inductive Err where
  /-- `new Error("DB connection not initialized yet")` thrown by `wrap`. -/
  | connNotInit
  /-- A JS `TypeError` (property access / call on `undefined`). -/
  | typeError (msg : String)
  /-- The fresh `thisError` object re-thrown by `wrap` after logging; it
  wraps the stack of the original error. -/
  | wrapErr (inner : Err)
  /-- An error raised by application code inside a transactional body. -/
  | userErr (tag : Nat)
deriving DecidableEq, Repr

/-- The module-level mutable environment of `sql.js`. -/
structure St where
  /-- Whether `setDbConnection` has been called (`dbConnection` is set). -/
  conn : Bool
  /-- `statementCache`: query text ↦ compiled statement handle. -/
  cache : List (String × Nat)
  /-- Source of fresh statement handles (engine side). -/
  next : Nat
  /-- CLS flag `isTransactional`. -/
  isTransactional : Bool
  /-- CLS flag `isInTransaction`. -/
  isInTransaction : Bool
  /-- The observable effect trace, oldest first. -/
  trace : List Ev
  /-- Engine oracle: the ordered rows `stmt(sql).all(params)` yields. -/
  db : String → Params → List Row
  /-- Engine oracle: `lastInsertRowid` reported by `.run`. -/
  rowid : Int

/-- `setDbConnection(connection)`. -/
def setDbConnection (s : St) : St := { s with conn := true }

/-- `stmt(sql)`: the statement cache. Checks `sql in statementCache` first;
only on a miss does it touch `dbConnection.prepare` (which, on an unset
connection, is a property access on `undefined`, hence a `TypeError`). -/
def stmt (sql : String) (s : St) : Except Err Nat × St :=
  match s.cache.lookup sql with
  | some h => (.ok h, s)
  | none =>
      if s.conn then
        (.ok s.next,
         { s with cache := (sql, s.next) :: s.cache,
                  next := s.next + 1,
                  trace := s.trace ++ [Ev.prepare sql] })
      else
        (.error (Err.typeError "Cannot read properties of undefined (reading 'prepare')"), s)

/-- `beginTransaction()`: `stmt("BEGIN").run()`. -/
def beginTransaction (s : St) : Except Err Int × St :=
  match stmt "BEGIN" s with
  | (.ok _, s1) => (.ok s1.rowid, { s1 with trace := s1.trace ++ [Ev.run "BEGIN" (Params.positional [])] })
  | (.error e, s1) => (.error e, s1)

/-- `commit()`: `stmt("COMMIT").run()`. -/
def commit (s : St) : Except Err Int × St :=
  match stmt "COMMIT" s with
  | (.ok _, s1) => (.ok s1.rowid, { s1 with trace := s1.trace ++ [Ev.run "COMMIT" (Params.positional [])] })
  | (.error e, s1) => (.error e, s1)

/-- `rollback()`: `stmt("ROLLBACK").run()`. -/
def rollback (s : St) : Except Err Int × St :=
  match stmt "ROLLBACK" s with
  | (.ok _, s1) => (.ok s1.rowid, { s1 with trace := s1.trace ++ [Ev.run "ROLLBACK" (Params.positional [])] })
  | (.error e, s1) => (.error e, s1)

/-- `wrap(func, query)`: connection check, timing (modelled as 0ms, so the
slow-query log never fires) and error rewrapping. On a caught error it logs
and throws the fresh `thisError` whose message is the original stack. -/
def wrap {α : Type} (func : St → Except Err α × St) (query : String) (s : St) :
    Except Err α × St :=
  if s.conn then
    match func s with
    | (.ok r, s1) => (.ok r, s1)
    | (.error e, s1) =>
        (.error (Err.wrapErr e),
         { s1 with trace := s1.trace ++ [Ev.logError "Error executing query. Inner exception: "] })
  else
    (.error Err.connNotInit, s)

/-- `getRow(query, params)`: `wrap(() => stmt(query).get(params), query)`;
`.get` yields the first row of the result sequence. -/
def getRow (query : String) (params : Params) (s : St) : Except Err (Option Row) × St :=
  wrap (fun s1 =>
    match stmt query s1 with
    | (.ok _, s2) => (.ok (s2.db query params).head?, { s2 with trace := s2.trace ++ [Ev.get query params] })
    | (.error e, s2) => (.error e, s2)) query s

/-- `getRows(query, params)`: `wrap(() => stmt(query).all(params), query)`. -/
def getRows (query : String) (params : Params) (s : St) : Except Err (List Row) × St :=
  wrap (fun s1 =>
    match stmt query s1 with
    | (.ok _, s2) => (.ok (s2.db query params), { s2 with trace := s2.trace ++ [Ev.all query params] })
    | (.error e, s2) => (.error e, s2)) query s

/-- `getRowOrNull(query, params)`: first row of `getRows` or `null`. -/
def getRowOrNull (query : String) (params : Params) (s : St) : Except Err (Option Row) × St :=
  match getRows query params s with
  | (.ok all, s1) => (.ok (if 0 < all.length then all.head? else none), s1)
  | (.error e, s1) => (.error e, s1)

/-- `getValue(query, params)`: the first column of `getRowOrNull`'s row
(`row[Object.keys(row)[0]]`), `null` when there is no row. A row with no
keys yields JS `undefined`; both are modelled as `none`. -/
def getValue (query : String) (params : Params) (s : St) : Except Err (Option Val) × St :=
  match getRowOrNull query params s with
  | (.ok none, s1) => (.ok none, s1)
  | (.ok (some row), s1) => (.ok (row.head?.map (fun kv => kv.2)), s1)
  | (.error e, s1) => (.error e, s1)

/-- JS `row[key]` for an optional key (`row[undefined]` is `undefined`). -/
def rowGet (row : Row) (k : Option String) : Option Val :=
  match k with
  | none => none
  | some key => (row.find? (fun kv => kv.1 == key)).map (fun kv => kv.2)

/-- JS string coercion of a value used as an object key. -/
def jsToString : Val → String
  | Val.null => "null"
  | Val.num n => toString n
  | Val.str s => s
  | Val.bool b => if b then "true" else "false"

/-- JS object property assignment `m[k] = v`: overwrite in place when the
key exists, otherwise append. (JS's special ordering of integer-like keys
is not modelled; no claim depends on the map's key order.) -/
def objSet (m : List (String × Option Val)) (k : String) (v : Option Val) :
    List (String × Option Val) :=
  if m.any (fun p => p.1 == k) then
    m.map (fun p => if p.1 == k then (k, v) else p)
  else m ++ [(k, v)]

/-- `getMap(query, params)`: builds `map[row[keys[0]]] = row[keys[1]]` over
the rows of `getRows`. -/
def getMap (query : String) (params : Params) (s : St) :
    Except Err (List (String × Option Val)) × St :=
  match getRows query params s with
  | (.ok results, s1) =>
      (.ok (results.foldl (fun m row =>
          let keys := row.map (fun kv => kv.1)
          objSet m
            (match rowGet row keys.head? with
             | some v => jsToString v
             | none => "undefined")
            (rowGet row keys[1]?)) []), s1)
  | (.error e, s1) => (.error e, s1)

/-- `getColumn(query, params)`: projects every row of `getRows` onto the
first column of the first row; empty result short-circuits to `[]`. -/
def getColumn (query : String) (params : Params) (s : St) :
    Except Err (List (Option Val)) × St :=
  match getRows query params s with
  | (.ok result, s1) =>
      if result.length = 0 then (.ok [], s1)
      else
        let key := ((result.head?.getD []).map (fun kv => kv.1)).head?
        (.ok (result.map (fun row => rowGet row key)), s1)
  | (.error e, s1) => (.error e, s1)

/-- `startTransactionIfNecessary()`: no-op unless `isTransactional` is set
and no physical transaction is open yet; otherwise set `isInTransaction`
(before the `BEGIN`, as in the source) and issue `BEGIN`. -/
def startTransactionIfNecessary (s : St) : Except Err Unit × St :=
  if !s.isTransactional || s.isInTransaction then (.ok (), s)
  else
    let s1 := { s with isInTransaction := true }
    match beginTransaction s1 with
    | (.ok _, s2) => (.ok (), s2)
    | (.error e, s2) => (.error e, s2)

/-- `execute(query, params)`: lazy `BEGIN` via `startTransactionIfNecessary`,
then `wrap(() => stmt(query).run(params), query)`; returns the run info
(`lastInsertRowid`). -/
def execute (query : String) (params : Params) (s : St) : Except Err Int × St :=
  match startTransactionIfNecessary s with
  | (.error e, s1) => (.error e, s1)
  | (.ok _, s1) =>
      wrap (fun s2 =>
        match stmt query s2 with
        | (.ok _, s3) => (.ok s3.rowid, { s3 with trace := s3.trace ++ [Ev.run query params] })
        | (.error e, s3) => (.error e, s3)) query s1

/-- `executeWithoutTransaction(query, params)`: a direct
`dbConnection.run`, no cache, no flags, no wrap. -/
def executeWithoutTransaction (query : String) (params : Params) (s : St) :
    Except Err Unit × St :=
  if s.conn then
    (.ok (), { s with trace := s.trace ++ [Ev.connRun query params] })
  else
    (.error (Err.typeError "Cannot read properties of undefined (reading 'run')"), s)

/-- `insert(tableName, rec, replace)`: empty record is logged and skipped
(JS returns `undefined`, modelled `none`); otherwise builds the INSERT from
the record's keys in order and returns `lastInsertRowid`. -/
def insert (tableName : String) (rec : List (String × Val)) (rep : Bool) (s : St) :
    Except Err (Option Int) × St :=
  let keys := rec.map (fun kv => kv.1)
  if keys.length = 0 then
    (.ok none, { s with trace := s.trace ++ [Ev.logError ("Can't insert empty object into table " ++ tableName)] })
  else
    let columns := String.intercalate ", " keys
    let questionMarks := String.intercalate ", " (keys.map (fun _ => "?"))
    let query := "INSERT " ++ (if rep then "OR REPLACE" else "") ++ " INTO " ++ tableName
      ++ "(" ++ columns ++ ") VALUES (" ++ questionMarks ++ ")"
    match execute query (Params.positional (rec.map (fun kv => kv.2))) s with
    | (.ok rid, s1) => (.ok (some rid), s1)
    | (.error e, s1) => (.error e, s1)

/-- `replace(tableName, rec)` = `insert` with replace = true. -/
def replaceRec (tableName : String) (rec : List (String × Val)) (s : St) :
    Except Err (Option Int) × St :=
  insert tableName rec true s

/-- The boolean-normalization loop of `upsert`: `rec[idx] = rec[idx] ? 1 : 0`
for every strictly-boolean field, performed on the caller's record object. -/
def normalizeRec (rec : List (String × Val)) : List (String × Val) :=
  rec.map (fun kv =>
    match kv.2 with
    | Val.bool b => (kv.1, Val.num (if b then 1 else 0))
    | _ => kv)

/-- The SQL text `upsert` builds (the template literal spans two lines in
the source; the line break and its indentation are reproduced). -/
def upsertQuery (tableName primaryKey : String) (rec : List (String × Val)) : String :=
  let keys := rec.map (fun kv => kv.1)
  let columns := String.intercalate ", " keys
  let questionMarks := String.intercalate ", " (keys.map (fun c => "@" ++ c))
  let updateMarks := String.intercalate ", " (keys.map (fun c => c ++ " = @" ++ c))
  "INSERT INTO " ++ tableName ++ " (" ++ columns ++ ") VALUES (" ++ questionMarks ++ ") \n"
    ++ "                   ON CONFLICT (" ++ primaryKey ++ ") DO UPDATE SET " ++ updateMarks

/-- `upsert(tableName, primaryKey, rec)`: empty record logged and skipped;
otherwise booleans in the caller's record are overwritten in place with 1/0
and the mutated record is bound as named parameters. The middle component of
the result is the caller's record object as it stands after the call (JS
mutates it in place); `upsert` itself returns `undefined` (`Unit`). -/
def upsert (tableName primaryKey : String) (rec : List (String × Val)) (s : St) :
    Except Err Unit × (List (String × Val) × St) :=
  let keys := rec.map (fun kv => kv.1)
  if keys.length = 0 then
    (.ok (), (rec, { s with trace := s.trace ++ [Ev.logError ("Can't upsert empty object into table " ++ tableName)] }))
  else
    let rec2 := normalizeRec rec
    match execute (upsertQuery tableName primaryKey rec) (Params.named rec2) s with
    | (.ok _, s1) => (.ok (), (rec2, s1))
    | (.error e, s1) => (.error e, (rec2, s1))

/-- `PARAM_LIMIT` ("actual limit is 999"). -/
def PARAM_LIMIT : Nat := 900

/-- The named-parameter object one batch binds: `param1 .. paramN` in input
order (`'param' + j++` in the source). -/
def mkParamsObj (curParams : List Val) : List (String × Val) :=
  curParams.enum.map (fun p => ("param" ++ toString (p.1 + 1), p.2))

/-- The rewritten per-batch query: every `???` marker replaced by
`:param1,...,:paramN` (the source builds the list with a `i++` counter). -/
def batchQuery (query : String) (count : Nat) : String :=
  query.replace "???" (String.intercalate "," ((List.range count).map (fun i => ":param" ++ toString (i + 1))))

/-- The `while (params.length > 0)` loop of `getManyRows`, with the
accumulated `results`. -/
def getManyRowsLoop (query : String) (params : List Val) (results : List Row) (s : St) :
    Except Err (List Row) × St :=
  if _h : params.length = 0 then (.ok results, s)
  else
    let curParams := params.take (min params.length PARAM_LIMIT)
    let rest := params.drop curParams.length
    let curQuery := batchQuery query curParams.length
    match getRows curQuery (Params.named (mkParamsObj curParams)) s with
    | (.ok rows, s1) => getManyRowsLoop query rest (results ++ rows) s1
    | (.error e, s1) => (.error e, s1)
termination_by params.length
decreasing_by
  simp only [List.length_drop, List.length_take, PARAM_LIMIT]
  omega

/-- `getManyRows(query, params)`: chunked execution below the 999-parameter
engine cap. -/
def getManyRows (query : String) (params : List Val) (s : St) :
    Except Err (List Row) × St :=
  getManyRowsLoop query params [] s

/-- `executeMany(query, params)`: lazy `BEGIN`, then `getManyRows`. The JS
function has no `return` statement: the rows `getManyRows` computes are
discarded and the caller observes `undefined` (`none`). -/
def executeMany (query : String) (params : List Val) (s : St) :
    Except Err (Option (List Row)) × St :=
  match startTransactionIfNecessary s with
  | (.error e, s1) => (.error e, s1)
  | (.ok _, s1) =>
      match getManyRows query params s1 with
      | (.ok _, s2) => (.ok none, s2)
      | (.error e, s2) => (.error e, s2)

/-- `executeScript(query)`: lazy `BEGIN`, then
`wrap(() => stmt.run(query), query)` — note the source calls `.run` on the
`stmt` cache *function* itself, not on `stmt(query)`; a JS function has no
`run` property, so the wrapped callback always throws a `TypeError`. -/
def executeScript (query : String) (s : St) : Except Err Int × St :=
  match startTransactionIfNecessary s with
  | (.error e, s1) => (.error e, s1)
  | (.ok _, s1) =>
      wrap (fun s2 => (.error (Err.typeError "stmt.run is not a function"), s2)) query s1

/-- `transactional(func)`: reentrant transaction demarcation. An already
transactional context runs `func` inline; otherwise this call owns the
scope: try `func`, commit + notify when a write opened a transaction,
rollback on error, and always clear the CLS flags in `finally`.
`sendPingToAllClients` — Modelled from the spec: `src/services/ws.js` is
not among the sources; the spec describes the notification sink as a
best-effort fire-and-forget call, so it is modelled as appending a `ping`
event and never throwing. -/
def transactional {α : Type} (func : St → Except Err α × St) (s : St) :
    Except Err α × St :=
  if s.isTransactional then func s
  else
    let s1 := { s with isTransactional := true }
    -- try/catch
    let caught : Except Err α × St :=
      match func s1 with
      | (.ok ret, s2) =>
          if s2.isInTransaction then
            match commit s2 with
            | (.ok _, s3) => (.ok ret, { s3 with trace := s3.trace ++ [Ev.ping] })
            | (.error e, s3) =>
                -- a throw inside the try block falls into the catch block
                if s3.isInTransaction then
                  match rollback s3 with
                  | (.ok _, s4) => (.error e, s4)
                  | (.error e2, s4) => (.error e2, s4)
                else (.error e, s3)
          else (.ok ret, s2)
      | (.error e, s2) =>
          if s2.isInTransaction then
            match rollback s2 with
            | (.ok _, s3) => (.error e, s3)
            | (.error e2, s3) => (.error e2, s3)
          else (.error e, s2)
    -- finally
    let s5 := { caught.2 with isTransactional := false }
    (caught.1, if s5.isInTransaction then { s5 with isInTransaction := false } else s5)

/-! ### Trace observations -/

/-- Physical `BEGIN`: a `.run` of the query text `BEGIN`. -/
def isBegin : Ev → Bool
  | Ev.run q _ => q == "BEGIN"
  | _ => false

/-- Physical `COMMIT`. -/
def isCommit : Ev → Bool
  | Ev.run q _ => q == "COMMIT"
  | _ => false

/-- Physical `ROLLBACK`. -/
def isRollback : Ev → Bool
  | Ev.run q _ => q == "ROLLBACK"
  | _ => false

/-- Client notification dispatch. -/
def isPing : Ev → Bool
  | Ev.ping => true
  | _ => false

/-- A batched read execution (`.all`). -/
def isAll : Ev → Bool
  | Ev.all _ _ => true
  | _ => false

/-- An engine compile of the given query text. -/
def isPrepareFor (sql : String) : Ev → Bool
  | Ev.prepare q => q == sql
  | _ => false

/-- A `.run` of the given query text. -/
def isRunFor (sql : String) : Ev → Bool
  | Ev.run q _ => q == sql
  | _ => false

/-- Number of events of a given kind in a trace. -/
def countEv (p : Ev → Bool) (t : List Ev) : Nat := (t.filter p).length

theorem countEv_append (p : Ev → Bool) (a b : List Ev) :
    countEv p (a ++ b) = countEv p a + countEv p b := by
  simp [countEv, List.filter_append]

theorem countEv_nil (p : Ev → Bool) : countEv p [] = 0 := rfl

/-- A step that leaves the connection, the engine oracle, both CLS flags
and every transaction-relevant event count unchanged (reads, cache fills,
log lines). -/
structure ReadStep (s s' : St) : Prop where
  conn : s'.conn = s.conn
  db : s'.db = s.db
  rowid : s'.rowid = s.rowid
  tx : s'.isTransactional = s.isTransactional
  intx : s'.isInTransaction = s.isInTransaction
  beginEq : countEv isBegin s'.trace = countEv isBegin s.trace
  commitEq : countEv isCommit s'.trace = countEv isCommit s.trace
  rollbackEq : countEv isRollback s'.trace = countEv isRollback s.trace
  pingEq : countEv isPing s'.trace = countEv isPing s.trace

/-- A step a transactional body may take: `isTransactional` untouched,
`isInTransaction` only ever turns on, and it turns on for exactly one new
physical `BEGIN`; no `COMMIT`/`ROLLBACK`/notification is ever emitted. -/
structure InlineStep (s s' : St) : Prop where
  conn : s'.conn = s.conn
  db : s'.db = s.db
  rowid : s'.rowid = s.rowid
  tx : s'.isTransactional = s.isTransactional
  intx : s.isInTransaction = true → s'.isInTransaction = true
  beginEq : countEv isBegin s'.trace + (if s.isInTransaction then 1 else 0) =
    countEv isBegin s.trace + (if s'.isInTransaction then 1 else 0)
  commitEq : countEv isCommit s'.trace = countEv isCommit s.trace
  rollbackEq : countEv isRollback s'.trace = countEv isRollback s.trace
  pingEq : countEv isPing s'.trace = countEv isPing s.trace

theorem ReadStep.rrefl (s : St) : ReadStep s s :=
  ⟨rfl, rfl, rfl, rfl, rfl, rfl, rfl, rfl, rfl⟩

theorem ReadStep.rtrans {s1 s2 s3 : St} (a : ReadStep s1 s2) (b : ReadStep s2 s3) :
    ReadStep s1 s3 :=
  ⟨b.conn.trans a.conn, b.db.trans a.db, b.rowid.trans a.rowid, b.tx.trans a.tx,
   b.intx.trans a.intx, b.beginEq.trans a.beginEq, b.commitEq.trans a.commitEq,
   b.rollbackEq.trans a.rollbackEq, b.pingEq.trans a.pingEq⟩

theorem ReadStep.toInline {s s' : St} (a : ReadStep s s') : InlineStep s s' := by
  refine ⟨a.conn, a.db, a.rowid, a.tx, fun h => a.intx.trans h, ?_, a.commitEq, a.rollbackEq, a.pingEq⟩
  rw [a.beginEq, a.intx]

theorem InlineStep.irefl (s : St) : InlineStep s s :=
  ⟨rfl, rfl, rfl, rfl, fun h => h, rfl, rfl, rfl, rfl⟩

theorem InlineStep.itrans {s1 s2 s3 : St} (a : InlineStep s1 s2) (b : InlineStep s2 s3) :
    InlineStep s1 s3 := by
  refine ⟨b.conn.trans a.conn, b.db.trans a.db, b.rowid.trans a.rowid, b.tx.trans a.tx,
    fun h => b.intx (a.intx h), ?_, b.commitEq.trans a.commitEq,
    b.rollbackEq.trans a.rollbackEq, b.pingEq.trans a.pingEq⟩
  have ha := a.beginEq
  have hb := b.beginEq
  cases h1 : s1.isInTransaction <;> cases h2 : s2.isInTransaction <;>
    cases h3 : s3.isInTransaction <;> simp [h1, h2, h3] at ha hb ⊢ <;> omega

theorem InlineStep.trans_read {s1 s2 s3 : St} (a : InlineStep s1 s2) (b : ReadStep s2 s3) :
    InlineStep s1 s3 := a.itrans b.toInline

theorem ReadStep.trans_inline {s1 s2 s3 : St} (a : ReadStep s1 s2) (b : InlineStep s2 s3) :
    InlineStep s1 s3 := a.toInline.itrans b

theorem countEv_single (p : Ev → Bool) (e : Ev) :
    countEv p [e] = if p e then 1 else 0 := by
  cases h : p e <;> simp [countEv, List.filter, h]

theorem countEv_cons (p : Ev → Bool) (e : Ev) (t : List Ev) :
    countEv p (e :: t) = (if p e then 1 else 0) + countEv p t := by
  cases h : p e <;> simp [countEv, List.filter, h] <;> omega

/-- Appending cache bookkeeping and non-transaction events is a `ReadStep`. -/
theorem ReadStep.append (s : St) (c : List (String × Nat)) (n : Nat) (l : List Ev)
    (hb : countEv isBegin l = 0) (hcm : countEv isCommit l = 0)
    (hrb : countEv isRollback l = 0) (hp : countEv isPing l = 0) :
    ReadStep s { s with cache := c, next := n, trace := s.trace ++ l } := by
  constructor <;> simp [countEv_append, hb, hcm, hrb, hp]

/-! ### Statement cache -/

theorem stmt_read (sql : String) (s : St) : ReadStep s (stmt sql s).2 := by
  unfold stmt
  cases h : s.cache.lookup sql with
  | none =>
      rcases Bool.eq_false_or_eq_true s.conn with hc | hc
      · simp only [h]
        rw [if_pos hc]
        exact ReadStep.append s _ _ [Ev.prepare sql] rfl rfl rfl rfl
      · simp only [h]
        rw [if_neg (by simp [hc])]
        exact ReadStep.rrefl s
  | some v =>
      simp only [h]
      exact ReadStep.rrefl s

theorem stmt_ok (sql : String) (s : St) (hc : s.conn = true) :
    ∃ h, (stmt sql s).1 = Except.ok h := by
  unfold stmt
  cases h : s.cache.lookup sql with
  | none => exact ⟨s.next, by simp only [h]; rw [if_pos hc]⟩
  | some v => exact ⟨v, by simp [h]⟩

theorem stmt_trace (sql : String) (s : St) :
    ∃ pre, (stmt sql s).2.trace = s.trace ++ pre ∧ (pre = [] ∨ pre = [Ev.prepare sql]) := by
  unfold stmt
  cases h : s.cache.lookup sql with
  | none =>
      rcases Bool.eq_false_or_eq_true s.conn with hc | hc
      · refine ⟨[Ev.prepare sql], ?_, Or.inr rfl⟩
        simp only [h]
        rw [if_pos hc]
      · refine ⟨[], ?_, Or.inl rfl⟩
        simp only [h]
        rw [if_neg (by simp [hc])]
        simp
  | some v => exact ⟨[], by simp [h]⟩

/-- On a missing connection and an uncached query, `stmt` throws the JS
`TypeError` for the property access on `undefined`, touching nothing. -/
theorem stmt_no_conn (sql : String) (s : St) (hc : s.conn = false)
    (hcache : s.cache.lookup sql = none) :
    stmt sql s = (.error (Err.typeError "Cannot read properties of undefined (reading 'prepare')"), s) := by
  simp [stmt, hcache, hc]

/-! ### Transaction verbs -/

theorem beginTransaction_spec (s : St) (hc : s.conn = true) :
    (beginTransaction s).1 = .ok s.rowid ∧
    (∃ pre, (beginTransaction s).2.trace = s.trace ++ pre ++ [Ev.run "BEGIN" (Params.positional [])] ∧
      (pre = [] ∨ pre = [Ev.prepare "BEGIN"])) ∧
    (beginTransaction s).2.conn = s.conn ∧ (beginTransaction s).2.db = s.db ∧
    (beginTransaction s).2.rowid = s.rowid ∧
    (beginTransaction s).2.isTransactional = s.isTransactional ∧
    (beginTransaction s).2.isInTransaction = s.isInTransaction := by
  unfold beginTransaction stmt
  cases h : s.cache.lookup "BEGIN" with
  | none =>
      refine ⟨?_, ⟨[Ev.prepare "BEGIN"], ?_, Or.inr rfl⟩, ?_, ?_, ?_, ?_, ?_⟩ <;>
        simp [h, hc]
  | some v =>
      refine ⟨?_, ⟨[], ?_, Or.inl rfl⟩, ?_, ?_, ?_, ?_, ?_⟩ <;> simp [h]

theorem commit_spec (s : St) (hc : s.conn = true) :
    (commit s).1 = .ok s.rowid ∧
    (∃ pre, (commit s).2.trace = s.trace ++ pre ++ [Ev.run "COMMIT" (Params.positional [])] ∧
      (pre = [] ∨ pre = [Ev.prepare "COMMIT"])) ∧
    (commit s).2.conn = s.conn ∧ (commit s).2.db = s.db ∧
    (commit s).2.rowid = s.rowid ∧
    (commit s).2.isTransactional = s.isTransactional ∧
    (commit s).2.isInTransaction = s.isInTransaction := by
  unfold commit stmt
  cases h : s.cache.lookup "COMMIT" with
  | none =>
      refine ⟨?_, ⟨[Ev.prepare "COMMIT"], ?_, Or.inr rfl⟩, ?_, ?_, ?_, ?_, ?_⟩ <;>
        simp [h, hc]
  | some v =>
      refine ⟨?_, ⟨[], ?_, Or.inl rfl⟩, ?_, ?_, ?_, ?_, ?_⟩ <;> simp [h]

theorem rollback_spec (s : St) (hc : s.conn = true) :
    (rollback s).1 = .ok s.rowid ∧
    (∃ pre, (rollback s).2.trace = s.trace ++ pre ++ [Ev.run "ROLLBACK" (Params.positional [])] ∧
      (pre = [] ∨ pre = [Ev.prepare "ROLLBACK"])) ∧
    (rollback s).2.conn = s.conn ∧ (rollback s).2.db = s.db ∧
    (rollback s).2.rowid = s.rowid ∧
    (rollback s).2.isTransactional = s.isTransactional ∧
    (rollback s).2.isInTransaction = s.isInTransaction := by
  unfold rollback stmt
  cases h : s.cache.lookup "ROLLBACK" with
  | none =>
      refine ⟨?_, ⟨[Ev.prepare "ROLLBACK"], ?_, Or.inr rfl⟩, ?_, ?_, ?_, ?_, ?_⟩ <;>
        simp [h, hc]
  | some v =>
      refine ⟨?_, ⟨[], ?_, Or.inl rfl⟩, ?_, ?_, ?_, ?_, ?_⟩ <;> simp [h]

/-! ### `wrap` and the read helpers -/

theorem wrap_read {α : Type} (f : St → Except Err α × St) (q : String) (s : St)
    (hf : ∀ s0, ReadStep s0 (f s0).2) : ReadStep s (wrap f q s).2 := by
  unfold wrap
  cases hc : s.conn
  · simp only [Bool.false_eq_true, if_false]
    exact ReadStep.rrefl s
  · simp only [if_true]
    cases hr : f s with
    | mk r s1 =>
      cases r
      · have h1 : ReadStep s s1 := by have := hf s; rwa [hr] at this
        exact h1.rtrans (ReadStep.append s1 s1.cache s1.next
          [Ev.logError "Error executing query. Inner exception: "] rfl rfl rfl rfl)
      · have h1 : ReadStep s s1 := by have := hf s; rwa [hr] at this
        exact h1

theorem getRow_read (q : String) (ps : Params) (s : St) : ReadStep s (getRow q ps s).2 := by
  unfold getRow
  refine wrap_read _ q s (fun s0 => ?_)
  cases h : stmt q s0 with
  | mk r s1 =>
    have h1 : ReadStep s0 s1 := by have := stmt_read q s0; rwa [h] at this
    cases r
    · exact h1
    · exact h1.rtrans (ReadStep.append s1 s1.cache s1.next [Ev.get q ps] rfl rfl rfl rfl)

theorem getRows_read (q : String) (ps : Params) (s : St) : ReadStep s (getRows q ps s).2 := by
  unfold getRows
  refine wrap_read _ q s (fun s0 => ?_)
  cases h : stmt q s0 with
  | mk r s1 =>
    have h1 : ReadStep s0 s1 := by have := stmt_read q s0; rwa [h] at this
    cases r
    · exact h1
    · exact h1.rtrans (ReadStep.append s1 s1.cache s1.next [Ev.all q ps] rfl rfl rfl rfl)

theorem getRows_spec (q : String) (ps : Params) (s : St) (hc : s.conn = true) :
    (getRows q ps s).1 = .ok (s.db q ps) ∧
    (∃ pre, (getRows q ps s).2.trace = s.trace ++ pre ++ [Ev.all q ps] ∧
      (pre = [] ∨ pre = [Ev.prepare q])) := by
  obtain ⟨h, hh⟩ := stmt_ok q s hc
  obtain ⟨pre, hpre, hcases⟩ := stmt_trace q s
  have hread := stmt_read q s
  unfold getRows wrap
  rw [if_pos hc]
  cases hst : stmt q s with
  | mk r s1 =>
    rw [hst] at hh hpre
    have hdb : s1.db = s.db := by rw [hst] at hread; exact hread.db
    simp only at hh hpre
    cases r with
    | error e => exact absurd hh (by simp)
    | ok hdl =>
        refine ⟨by simp [hst, hdb], ⟨pre, ?_, hcases⟩⟩
        simp [hst, hpre]

theorem getRowOrNull_read (q : String) (ps : Params) (s : St) :
    ReadStep s (getRowOrNull q ps s).2 := by
  unfold getRowOrNull
  have h0 := getRows_read q ps s
  cases h : getRows q ps s with
  | mk r s1 =>
    rw [h] at h0
    cases r <;> exact h0

theorem getValue_read (q : String) (ps : Params) (s : St) :
    ReadStep s (getValue q ps s).2 := by
  unfold getValue
  have h0 := getRowOrNull_read q ps s
  cases h : getRowOrNull q ps s with
  | mk r s1 =>
    rw [h] at h0
    cases r with
    | error e => exact h0
    | ok o => cases o <;> exact h0

theorem getMap_read (q : String) (ps : Params) (s : St) :
    ReadStep s (getMap q ps s).2 := by
  unfold getMap
  have h0 := getRows_read q ps s
  cases h : getRows q ps s with
  | mk r s1 =>
    rw [h] at h0
    cases r <;> exact h0

theorem getColumn_read (q : String) (ps : Params) (s : St) :
    ReadStep s (getColumn q ps s).2 := by
  unfold getColumn
  have h0 := getRows_read q ps s
  cases h : getRows q ps s with
  | mk r s1 =>
    rw [h] at h0
    cases r with
    | error e => exact h0
    | ok res =>
        dsimp only
        by_cases hl : res.length = 0
        · rw [if_pos hl]
          exact h0
        · rw [if_neg hl]
          exact h0

theorem getManyRowsLoop_read (q : String) :
    ∀ (n : Nat) (params : List Val), params.length = n →
      ∀ (acc : List Row) (s : St), ReadStep s (getManyRowsLoop q params acc s).2 := by
  intro n
  induction n using Nat.strong_induction_on with
  | _ n ih =>
    intro params hlen acc s
    rw [getManyRowsLoop]
    split
    · exact ReadStep.rrefl s
    · rename_i hp
      dsimp only
      have h0 := getRows_read (batchQuery q (params.take (min params.length PARAM_LIMIT)).length)
        (Params.named (mkParamsObj (params.take (min params.length PARAM_LIMIT)))) s
      cases h : getRows (batchQuery q (params.take (min params.length PARAM_LIMIT)).length)
          (Params.named (mkParamsObj (params.take (min params.length PARAM_LIMIT)))) s with
      | mk r s1 =>
        rw [h] at h0
        cases r with
        | error e => exact h0
        | ok rows =>
            refine h0.rtrans (ih (params.drop (params.take (min params.length PARAM_LIMIT)).length).length ?_ _ rfl (acc ++ rows) s1)
            simp only [List.length_drop, List.length_take, PARAM_LIMIT]
            omega

theorem getManyRows_read (q : String) (params : List Val) (s : St) :
    ReadStep s (getManyRows q params s).2 :=
  getManyRowsLoop_read q params.length params rfl [] s

/-! ### Write operations -/

theorem startTransactionIfNecessary_spec (s : St) (hc : s.conn = true) :
    (startTransactionIfNecessary s).1 = Except.ok () ∧
    InlineStep s (startTransactionIfNecessary s).2 ∧
    ((!s.isTransactional || s.isInTransaction) = true → (startTransactionIfNecessary s).2 = s) ∧
    (startTransactionIfNecessary s).2.isInTransaction = (s.isInTransaction || s.isTransactional) := by
  unfold startTransactionIfNecessary
  by_cases hcond : (!s.isTransactional || s.isInTransaction) = true
  · rw [if_pos hcond]
    refine ⟨rfl, InlineStep.irefl s, fun _ => rfl, ?_⟩
    cases hT : s.isTransactional <;> cases hI : s.isInTransaction <;>
      simp [hT, hI] at hcond ⊢
  · rw [if_neg hcond]
    have hT : s.isTransactional = true := by
      cases hT : s.isTransactional <;> simp [hT] at hcond ⊢
    have hI : s.isInTransaction = false := by
      cases hI : s.isInTransaction <;> simp [hI] at hcond ⊢
    dsimp only
    obtain ⟨hr, ⟨pre, htr, hprecases⟩, hconn, hdb, hrowid, htx, hintx⟩ :=
      beginTransaction_spec { s with isInTransaction := true } (by simpa using hc)
    cases hbt : beginTransaction { s with isInTransaction := true } with
    | mk r s2 =>
      rw [hbt] at hr htr hconn hdb hrowid htx hintx
      dsimp only at hr htr hconn hdb hrowid htx hintx
      cases r with
      | error e => exact absurd hr (by simp)
      | ok v =>
          refine ⟨rfl, ?_, fun hco => absurd hco hcond, by simp [hintx, hT]⟩
          refine ⟨hconn, hdb, hrowid, htx, fun h => by rw [hintx], ?_, ?_, ?_, ?_⟩ <;>
            rcases hprecases with hpre | hpre <;>
              subst hpre <;>
                simp [htr, countEv_append, countEv_single, hI, hintx,
                  isBegin, isCommit, isRollback, isPing] <;>
                  decide

theorem execute_spec (q : String) (ps : Params) (s : St) (hc : s.conn = true)
    (hqb : q ≠ "BEGIN") (hqc : q ≠ "COMMIT") (hqr : q ≠ "ROLLBACK") :
    (execute q ps s).1 = Except.ok s.rowid ∧
    InlineStep s (execute q ps s).2 ∧
    (execute q ps s).2.isInTransaction = (s.isInTransaction || s.isTransactional) ∧
    (∃ mid, (execute q ps s).2.trace = s.trace ++ mid ++ [Ev.run q ps]) := by
  unfold execute
  obtain ⟨hr0, hstep0, _, hintx0⟩ := startTransactionIfNecessary_spec s hc
  cases hst : startTransactionIfNecessary s with
  | mk r0 s1 =>
    rw [hst] at hr0 hstep0 hintx0
    dsimp only at hr0 hstep0 hintx0
    cases r0 with
    | error e => exact absurd hr0 (by simp)
    | ok u =>
        have hc1 : s1.conn = true := by rw [hstep0.conn, hc]
        dsimp only
        unfold wrap
        rw [if_pos hc1]
        dsimp only
        obtain ⟨h1, hh1⟩ := stmt_ok q s1 hc1
        obtain ⟨pre, hpre, hprecases⟩ := stmt_trace q s1
        have hread1 := stmt_read q s1
        cases hstm : stmt q s1 with
        | mk r1 s2 =>
          rw [hstm] at hh1 hpre hread1
          dsimp only at hh1 hpre hread1
          cases r1 with
          | error e => exact absurd hh1 (by simp)
          | ok hdl =>
              dsimp only
              have hstep2 : InlineStep s1 { s2 with trace := s2.trace ++ [Ev.run q ps] } := by
                refine hread1.toInline.itrans ?_
                refine ⟨rfl, rfl, rfl, rfl, fun h => h, ?_, ?_, ?_, ?_⟩ <;>
                  simp [countEv_append, countEv_single, isBegin, isCommit, isRollback, isPing,
                    hqb, hqc, hqr]
              have hrow : s2.rowid = s.rowid := hread1.rowid.trans hstep0.rowid
              refine ⟨by simp [hrow], hstep0.itrans hstep2, ?_, ?_⟩
              · have : s2.isInTransaction = s1.isInTransaction := hread1.intx
                simp [this, hintx0]
              · obtain ⟨mid0, hmid0⟩ : ∃ mid0, s1.trace = s.trace ++ mid0 := by
                  -- trace of the lazy-BEGIN step is an append
                  revert hst
                  unfold startTransactionIfNecessary
                  by_cases hcond : (!s.isTransactional || s.isInTransaction) = true
                  · rw [if_pos hcond]
                    intro hst
                    cases hst
                    exact ⟨[], by simp⟩
                  · rw [if_neg hcond]
                    dsimp only
                    obtain ⟨_, ⟨pre2, htr2, _⟩, _⟩ :=
                      beginTransaction_spec { s with isInTransaction := true } (by simpa using hc)
                    cases hbt : beginTransaction { s with isInTransaction := true } with
                    | mk rb sb =>
                      rw [hbt] at htr2
                      dsimp only at htr2
                      cases rb with
                      | error e => intro hst; cases hst
                      | ok v =>
                          intro hst
                          cases hst
                          exact ⟨pre2 ++ [Ev.run "BEGIN" (Params.positional [])], by simp [htr2]⟩
                exact ⟨mid0 ++ pre, by simp [hpre, hmid0]⟩

theorem executeScript_spec (q : String) (s : St) (hc : s.conn = true) :
    (executeScript q s).1 = Except.error (Err.wrapErr (Err.typeError "stmt.run is not a function")) ∧
    InlineStep s (executeScript q s).2 ∧
    (executeScript q s).2.isInTransaction = (s.isInTransaction || s.isTransactional) ∧
    (q ≠ "BEGIN" →
      countEv (isRunFor q) (executeScript q s).2.trace = countEv (isRunFor q) s.trace) := by
  unfold executeScript
  obtain ⟨hr0, hstep0, hnoop0, hintx0⟩ := startTransactionIfNecessary_spec s hc
  cases hst : startTransactionIfNecessary s with
  | mk r0 s1 =>
    rw [hst] at hr0 hstep0 hintx0 hnoop0
    dsimp only at hr0 hstep0 hintx0
    cases r0 with
    | error e => exact absurd hr0 (by simp)
    | ok u =>
        have hc1 : s1.conn = true := by rw [hstep0.conn, hc]
        dsimp only
        unfold wrap
        rw [if_pos hc1]
        dsimp only
        have hstep1 : InlineStep s1
            { s1 with trace := s1.trace ++ [Ev.logError "Error executing query. Inner exception: "] } := by
          refine ⟨rfl, rfl, rfl, rfl, fun h => h, ?_, ?_, ?_, ?_⟩ <;>
            simp [countEv_append, countEv_single, isBegin, isCommit, isRollback, isPing]
        refine ⟨rfl, hstep0.itrans hstep1, hintx0, fun hq => ?_⟩
        -- the run-count of q: the only run event possibly added is the lazy BEGIN
        revert hst
        unfold startTransactionIfNecessary
        by_cases hcond : (!s.isTransactional || s.isInTransaction) = true
        · rw [if_pos hcond]
          intro hst
          cases hst
          simp [countEv_append, countEv_single, isRunFor]
        · rw [if_neg hcond]
          dsimp only
          obtain ⟨_, ⟨pre2, htr2, hpre2⟩, _⟩ :=
            beginTransaction_spec { s with isInTransaction := true } (by simpa using hc)
          cases hbt : beginTransaction { s with isInTransaction := true } with
          | mk rb sb =>
            rw [hbt] at htr2
            dsimp only at htr2
            cases rb with
            | error e => intro hst; cases hst
            | ok v =>
                intro hst
                cases hst
                have hbq : ("BEGIN" == q) = false := beq_eq_false_iff_ne.mpr (Ne.symm hq)
                rcases hpre2 with hp2 | hp2 <;> subst hp2 <;>
                  simp [htr2, countEv_append, countEv, List.filter, isRunFor, hbq]

theorem getManyRowsLoop_ok (q : String) :
    ∀ (n : Nat) (ps : List Val) (acc : List Row) (s : St), ps.length = n → s.conn = true →
      ∃ rows, (getManyRowsLoop q ps acc s).1 = Except.ok rows := by
  intro n
  induction n using Nat.strong_induction_on with
  | _ n ih =>
    intro ps acc s hlen hc
    rw [getManyRowsLoop]
    split
    · exact ⟨acc, rfl⟩
    · rename_i hp
      dsimp only
      obtain ⟨hval, _⟩ := getRows_spec
        (batchQuery q (ps.take (min ps.length PARAM_LIMIT)).length)
        (Params.named (mkParamsObj (ps.take (min ps.length PARAM_LIMIT)))) s hc
      have hread := getRows_read
        (batchQuery q (ps.take (min ps.length PARAM_LIMIT)).length)
        (Params.named (mkParamsObj (ps.take (min ps.length PARAM_LIMIT)))) s
      cases hgr : getRows (batchQuery q (ps.take (min ps.length PARAM_LIMIT)).length)
          (Params.named (mkParamsObj (ps.take (min ps.length PARAM_LIMIT)))) s with
      | mk r2 s2 =>
        rw [hgr] at hval hread
        dsimp only at hval hread
        cases r2 with
        | error e => exact absurd hval (by simp)
        | ok rows =>
            exact ih (ps.drop (ps.take (min ps.length PARAM_LIMIT)).length).length
              (by subst hlen; simp only [List.length_drop, List.length_take, PARAM_LIMIT]; omega)
              _ (acc ++ rows) s2 rfl (hread.conn.trans hc)

theorem executeMany_inline (q : String) (ps : List Val) (s : St) (hc : s.conn = true) :
    (executeMany q ps s).1 = Except.ok none ∧
    InlineStep s (executeMany q ps s).2 ∧
    (executeMany q ps s).2.isInTransaction = (s.isInTransaction || s.isTransactional) := by
  unfold executeMany
  obtain ⟨hr0, hstep0, _, hintx0⟩ := startTransactionIfNecessary_spec s hc
  cases hst : startTransactionIfNecessary s with
  | mk r0 s1 =>
    rw [hst] at hr0 hstep0 hintx0
    dsimp only at hr0 hstep0 hintx0
    cases r0 with
    | error e => exact absurd hr0 (by simp)
    | ok u =>
        have hc1 : s1.conn = true := by rw [hstep0.conn, hc]
        dsimp only
        have hloop := getManyRows_read q ps s1
        obtain ⟨rows, hrows⟩ := getManyRowsLoop_ok q ps.length ps [] s1 rfl hc1
        rw [show (getManyRowsLoop q ps [] s1) = getManyRows q ps s1 from rfl] at hrows
        cases hgm : getManyRows q ps s1 with
        | mk r1 s2 =>
          rw [hgm] at hrows hloop
          dsimp only at hrows hloop
          cases r1 with
          | error e => exact absurd hrows (by simp)
          | ok rs =>
              refine ⟨rfl, hstep0.itrans hloop.toInline, ?_⟩
              simp [hloop.intx, hintx0]

/-- The INSERT text built by `insert` is too long to be a transaction verb. -/
theorem insert_query_long (t cols marks : String) (rep : Bool) :
    9 ≤ ("INSERT " ++ (if rep then "OR REPLACE" else "") ++ " INTO " ++ t
      ++ "(" ++ cols ++ ") VALUES (" ++ marks ++ ")").length := by
  have e1 : ("INSERT  INTO " : String).length = 13 := by decide
  have e2 : ("INSERT OR REPLACE INTO " : String).length = 23 := by decide
  have e3 : ("(" : String).length = 1 := by decide
  have e4 : (") VALUES (" : String).length = 10 := by decide
  have e5 : (")" : String).length = 1 := by decide
  cases rep <;> simp [String.length_append, e1, e2, e3, e4, e5] <;> omega

theorem insert_query_ne_verbs (t cols marks : String) (rep : Bool) :
    ("INSERT " ++ (if rep then "OR REPLACE" else "") ++ " INTO " ++ t
        ++ "(" ++ cols ++ ") VALUES (" ++ marks ++ ")") ≠ "BEGIN" ∧
    ("INSERT " ++ (if rep then "OR REPLACE" else "") ++ " INTO " ++ t
        ++ "(" ++ cols ++ ") VALUES (" ++ marks ++ ")") ≠ "COMMIT" ∧
    ("INSERT " ++ (if rep then "OR REPLACE" else "") ++ " INTO " ++ t
        ++ "(" ++ cols ++ ") VALUES (" ++ marks ++ ")") ≠ "ROLLBACK" := by
  have hl := insert_query_long t cols marks rep
  refine ⟨fun h => ?_, fun h => ?_, fun h => ?_⟩ <;> rw [h] at hl <;> revert hl <;> decide

/-- The upsert text is too long to be a transaction verb. -/
theorem upsertQuery_ne_verbs (t pk : String) (rec : List (String × Val)) :
    upsertQuery t pk rec ≠ "BEGIN" ∧ upsertQuery t pk rec ≠ "COMMIT" ∧
    upsertQuery t pk rec ≠ "ROLLBACK" := by
  have e1 : ("INSERT INTO " : String).length = 12 := by decide
  have hl : 9 ≤ (upsertQuery t pk rec).length := by
    unfold upsertQuery
    simp [String.length_append, e1]
    omega
  refine ⟨fun h => ?_, fun h => ?_, fun h => ?_⟩ <;> rw [h] at hl <;> revert hl <;> decide

theorem insert_inline (t : String) (rec : List (String × Val)) (rep : Bool) (s : St)
    (hc : s.conn = true) :
    (∃ r, (insert t rec rep s).1 = Except.ok r) ∧ InlineStep s (insert t rec rep s).2 := by
  unfold insert
  by_cases hrec : (rec.map (fun kv => kv.1)).length = 0
  · rw [if_pos hrec]
    exact ⟨⟨none, rfl⟩,
      (ReadStep.append s s.cache s.next
        [Ev.logError ("Can't insert empty object into table " ++ t)] rfl rfl rfl rfl).toInline⟩
  · rw [if_neg hrec]
    dsimp only
    obtain ⟨hqb, hqc, hqr⟩ := insert_query_ne_verbs t
      (String.intercalate ", " (rec.map (fun kv => kv.1)))
      (String.intercalate ", " ((rec.map (fun kv => kv.1)).map (fun _ => "?"))) rep
    obtain ⟨hval, hstep, _, _⟩ := execute_spec
      ("INSERT " ++ (if rep then "OR REPLACE" else "") ++ " INTO " ++ t
        ++ "(" ++ String.intercalate ", " (rec.map (fun kv => kv.1))
        ++ ") VALUES (" ++ String.intercalate ", " ((rec.map (fun kv => kv.1)).map (fun _ => "?")) ++ ")")
      (Params.positional (rec.map (fun kv => kv.2))) s hc hqb hqc hqr
    cases hex : execute
        ("INSERT " ++ (if rep then "OR REPLACE" else "") ++ " INTO " ++ t
          ++ "(" ++ String.intercalate ", " (rec.map (fun kv => kv.1))
          ++ ") VALUES (" ++ String.intercalate ", " ((rec.map (fun kv => kv.1)).map (fun _ => "?")) ++ ")")
        (Params.positional (rec.map (fun kv => kv.2))) s with
    | mk r1 s1 =>
      rw [hex] at hval hstep
      dsimp only at hval hstep
      cases r1 with
      | error e => exact absurd hval (by simp)
      | ok v => exact ⟨⟨some v, rfl⟩, hstep⟩

theorem upsert_inline (t pk : String) (rec : List (String × Val)) (s : St)
    (hc : s.conn = true) :
    (∃ r, (upsert t pk rec s).1 = Except.ok r) ∧ InlineStep s (upsert t pk rec s).2.2 := by
  unfold upsert
  by_cases hrec : (rec.map (fun kv => kv.1)).length = 0
  · rw [if_pos hrec]
    exact ⟨⟨(), rfl⟩,
      (ReadStep.append s s.cache s.next
        [Ev.logError ("Can't upsert empty object into table " ++ t)] rfl rfl rfl rfl).toInline⟩
  · rw [if_neg hrec]
    dsimp only
    obtain ⟨hqb, hqc, hqr⟩ := upsertQuery_ne_verbs t pk rec
    obtain ⟨hval, hstep, _, _⟩ := execute_spec (upsertQuery t pk rec)
      (Params.named (normalizeRec rec)) s hc hqb hqc hqr
    cases hex : execute (upsertQuery t pk rec) (Params.named (normalizeRec rec)) s with
    | mk r1 s1 =>
      rw [hex] at hval hstep
      dsimp only at hval hstep
      cases r1 with
      | error e => exact absurd hval (by simp)
      | ok v => exact ⟨⟨(), rfl⟩, hstep⟩

/-! ### Client programs

A transactional body is application code composed from the module's public
API. `Prog` is the syntax of such bodies: each step runs one API call and
continues (results do not influence control flow — enough for the protocol
claims, which are about effect traces and flags). -/

inductive Prog where
  /-- Return a value. -/
  | ret (v : Val)
  /-- Throw an application error. -/
  | raiseE (tag : Nat)
  | getRowP (q : String) (ps : Params) (k : Prog)
  | getRowsP (q : String) (ps : Params) (k : Prog)
  | getManyRowsP (q : String) (ps : List Val) (k : Prog)
  | executeP (q : String) (ps : Params) (k : Prog)
  | executeManyP (q : String) (ps : List Val) (k : Prog)
  | executeScriptP (q : String) (k : Prog)
  | insertP (t : String) (rec : List (String × Val)) (rep : Bool) (k : Prog)
  | upsertP (t : String) (pk : String) (rec : List (String × Val)) (k : Prog)
  | transactionalP (inner : Prog) (k : Prog)
deriving DecidableEq, Repr

/-- Well-formed application code: it never hand-issues a transaction verb
through `execute` (the module's coordinator owns `BEGIN`/`COMMIT`/`ROLLBACK`;
the public API offers no other way to reach them). -/
def Prog.wf : Prog → Bool
  | .ret _ => true
  | .raiseE _ => true
  | .getRowP _ _ k => k.wf
  | .getRowsP _ _ k => k.wf
  | .getManyRowsP _ _ k => k.wf
  | .executeP q _ k =>
      !(q == "BEGIN") && !(q == "COMMIT") && !(q == "ROLLBACK") && k.wf
  | .executeManyP _ _ k => k.wf
  | .executeScriptP _ k => k.wf
  | .insertP _ _ _ k => k.wf
  | .upsertP _ _ _ k => k.wf
  | .transactionalP inner k => inner.wf && k.wf

/-- Run a client program against the module: each API call's error aborts
the rest of the program (a JS throw). -/
def runProg : Prog → St → Except Err Val × St
  | .ret v, s => (.ok v, s)
  | .raiseE t, s => (.error (Err.userErr t), s)
  | .getRowP q ps k, s =>
      match getRow q ps s with
      | (.ok _, s1) => runProg k s1
      | (.error e, s1) => (.error e, s1)
  | .getRowsP q ps k, s =>
      match getRows q ps s with
      | (.ok _, s1) => runProg k s1
      | (.error e, s1) => (.error e, s1)
  | .getManyRowsP q ps k, s =>
      match getManyRows q ps s with
      | (.ok _, s1) => runProg k s1
      | (.error e, s1) => (.error e, s1)
  | .executeP q ps k, s =>
      match execute q ps s with
      | (.ok _, s1) => runProg k s1
      | (.error e, s1) => (.error e, s1)
  | .executeManyP q ps k, s =>
      match executeMany q ps s with
      | (.ok _, s1) => runProg k s1
      | (.error e, s1) => (.error e, s1)
  | .executeScriptP q k, s =>
      match executeScript q s with
      | (.ok _, s1) => runProg k s1
      | (.error e, s1) => (.error e, s1)
  | .insertP t rec rep k, s =>
      match insert t rec rep s with
      | (.ok _, s1) => runProg k s1
      | (.error e, s1) => (.error e, s1)
  | .upsertP t pk rec k, s =>
      match upsert t pk rec s with
      | (.ok _, (_, s1)) => runProg k s1
      | (.error e, (_, s1)) => (.error e, s1)
  | .transactionalP inner k, s =>
      match transactional (fun s0 => runProg inner s0) s with
      | (.ok _, s1) => runProg k s1
      | (.error e, s1) => (.error e, s1)

/-- Inside an already-transactional context (`isTransactional = true`), any
well-formed application program only takes `InlineStep`s: it never commits,
rolls back or notifies, keeps `isTransactional` set, and issues exactly one
physical `BEGIN` when (and only when) it turns `isInTransaction` on. -/
theorem runProg_inline (p : Prog) : ∀ (s : St), p.wf = true → s.conn = true →
    s.isTransactional = true → InlineStep s (runProg p s).2 := by
  induction p with
  | ret v =>
      intro s _ _ _
      exact InlineStep.irefl s
  | raiseE t =>
      intro s _ _ _
      exact InlineStep.irefl s
  | getRowP q ps k ih =>
      intro s hw hc hT
      simp only [runProg]
      have h0 := (getRow_read q ps s).toInline
      cases h : getRow q ps s with
      | mk r s1 =>
        rw [h] at h0
        dsimp only at h0
        cases r with
        | error e => exact h0
        | ok v => exact h0.itrans (ih s1 hw (h0.conn.trans hc) (h0.tx.trans hT))
  | getRowsP q ps k ih =>
      intro s hw hc hT
      simp only [runProg]
      have h0 := (getRows_read q ps s).toInline
      cases h : getRows q ps s with
      | mk r s1 =>
        rw [h] at h0
        dsimp only at h0
        cases r with
        | error e => exact h0
        | ok v => exact h0.itrans (ih s1 hw (h0.conn.trans hc) (h0.tx.trans hT))
  | getManyRowsP q ps k ih =>
      intro s hw hc hT
      simp only [runProg]
      have h0 := (getManyRows_read q ps s).toInline
      cases h : getManyRows q ps s with
      | mk r s1 =>
        rw [h] at h0
        dsimp only at h0
        cases r with
        | error e => exact h0
        | ok v => exact h0.itrans (ih s1 hw (h0.conn.trans hc) (h0.tx.trans hT))
  | executeP q ps k ih =>
      intro s hw hc hT
      have hw' := hw
      simp only [Prog.wf, Bool.and_eq_true, Bool.not_eq_true', beq_eq_false_iff_ne] at hw'
      obtain ⟨⟨⟨hqb, hqc⟩, hqr⟩, hkw⟩ := hw'
      simp only [runProg]
      obtain ⟨hval, hstep, _, _⟩ := execute_spec q ps s hc hqb hqc hqr
      cases h : execute q ps s with
      | mk r s1 =>
        rw [h] at hval hstep
        dsimp only at hval hstep
        cases r with
        | error e => exact absurd hval (by simp)
        | ok v => exact hstep.itrans (ih s1 hkw (hstep.conn.trans hc) (hstep.tx.trans hT))
  | executeManyP q ps k ih =>
      intro s hw hc hT
      simp only [runProg]
      obtain ⟨hval, hstep, _⟩ := executeMany_inline q ps s hc
      cases h : executeMany q ps s with
      | mk r s1 =>
        rw [h] at hval hstep
        dsimp only at hval hstep
        cases r with
        | error e => exact absurd hval (by simp)
        | ok v => exact hstep.itrans (ih s1 hw (hstep.conn.trans hc) (hstep.tx.trans hT))
  | executeScriptP q k ih =>
      intro s hw hc hT
      simp only [runProg]
      obtain ⟨hval, hstep, _, _⟩ := executeScript_spec q s hc
      cases h : executeScript q s with
      | mk r s1 =>
        rw [h] at hval hstep
        dsimp only at hval hstep
        cases r with
        | error e => exact hstep
        | ok v => exact absurd hval (by simp)
  | insertP t rec rep k ih =>
      intro s hw hc hT
      simp only [runProg]
      obtain ⟨⟨r0, hr0⟩, hstep⟩ := insert_inline t rec rep s hc
      cases h : insert t rec rep s with
      | mk r s1 =>
        rw [h] at hr0 hstep
        dsimp only at hr0 hstep
        cases r with
        | error e => exact absurd hr0 (by simp)
        | ok v => exact hstep.itrans (ih s1 hw (hstep.conn.trans hc) (hstep.tx.trans hT))
  | upsertP t pk rec k ih =>
      intro s hw hc hT
      simp only [runProg]
      obtain ⟨⟨r0, hr0⟩, hstep⟩ := upsert_inline t pk rec s hc
      cases h : upsert t pk rec s with
      | mk r pr =>
        cases pr with
        | mk rec1 s1 =>
          rw [h] at hr0 hstep
          dsimp only at hr0 hstep
          cases r with
          | error e => exact absurd hr0 (by simp)
          | ok v => exact hstep.itrans (ih s1 hw (hstep.conn.trans hc) (hstep.tx.trans hT))
  | transactionalP inner k ih_inner ih_k =>
      intro s hw hc hT
      have hw' := hw
      simp only [Prog.wf, Bool.and_eq_true] at hw'
      obtain ⟨hwi, hwk⟩ := hw'
      simp only [runProg]
      have htrans : transactional (fun s0 => runProg inner s0) s = runProg inner s := by
        unfold transactional
        rw [if_pos hT]
      rw [htrans]
      have h0 := ih_inner s hwi hc hT
      cases h : runProg inner s with
      | mk r s1 =>
        rw [h] at h0
        dsimp only at h0
        cases r with
        | error e => exact h0
        | ok v => exact h0.itrans (ih_k s1 hwk (h0.conn.trans hc) (h0.tx.trans hT))

/-- Full behaviour of an owning `transactional(body)` call started from a
clean context: guaranteed flag cleanup on every exit path, `COMMIT` +
notification exactly when the body both succeeded and wrote, `ROLLBACK` and
re-raise of the same error object when it wrote and failed, and no
transaction verb at all when no write happened. -/
theorem transactional_run_spec (p : Prog) (s : St) (hw : p.wf = true) (hc : s.conn = true)
    (hT : s.isTransactional = false) :
    (transactional (fun s0 => runProg p s0) s).2.isTransactional = false ∧
    (transactional (fun s0 => runProg p s0) s).2.isInTransaction = false ∧
    (transactional (fun s0 => runProg p s0) s).2.conn = s.conn ∧
    (transactional (fun s0 => runProg p s0) s).2.db = s.db ∧
    (transactional (fun s0 => runProg p s0) s).2.rowid = s.rowid ∧
    (∀ v, (runProg p { s with isTransactional := true }).1 = Except.ok v →
      (runProg p { s with isTransactional := true }).2.isInTransaction = true →
      (transactional (fun s0 => runProg p s0) s).1 = Except.ok v ∧
      ∃ pre, (transactional (fun s0 => runProg p s0) s).2.trace =
          (runProg p { s with isTransactional := true }).2.trace ++ pre
            ++ [Ev.run "COMMIT" (Params.positional []), Ev.ping] ∧
        (pre = [] ∨ pre = [Ev.prepare "COMMIT"])) ∧
    (∀ v, (runProg p { s with isTransactional := true }).1 = Except.ok v →
      (runProg p { s with isTransactional := true }).2.isInTransaction = false →
      (transactional (fun s0 => runProg p s0) s).1 = Except.ok v ∧
      (transactional (fun s0 => runProg p s0) s).2.trace =
        (runProg p { s with isTransactional := true }).2.trace) ∧
    (∀ e, (runProg p { s with isTransactional := true }).1 = Except.error e →
      (runProg p { s with isTransactional := true }).2.isInTransaction = true →
      (transactional (fun s0 => runProg p s0) s).1 = Except.error e ∧
      ∃ pre, (transactional (fun s0 => runProg p s0) s).2.trace =
          (runProg p { s with isTransactional := true }).2.trace ++ pre
            ++ [Ev.run "ROLLBACK" (Params.positional [])] ∧
        (pre = [] ∨ pre = [Ev.prepare "ROLLBACK"])) ∧
    (∀ e, (runProg p { s with isTransactional := true }).1 = Except.error e →
      (runProg p { s with isTransactional := true }).2.isInTransaction = false →
      (transactional (fun s0 => runProg p s0) s).1 = Except.error e ∧
      (transactional (fun s0 => runProg p s0) s).2.trace =
        (runProg p { s with isTransactional := true }).2.trace) := by
  have hInv := runProg_inline p { s with isTransactional := true } hw (by simpa using hc) rfl
  unfold transactional
  rw [if_neg (by simp [hT])]
  dsimp only
  cases hb : runProg p { s with isTransactional := true } with
  | mk r s2 =>
    rw [hb] at hInv
    dsimp only at hInv
    have hc2 : s2.conn = true := hInv.conn.trans hc
    cases r with
    | ok v =>
        dsimp only
        by_cases hI2 : s2.isInTransaction = true
        · rw [if_pos hI2]
          obtain ⟨hcv, ⟨pre, hctr, hcpre⟩, hcconn, hcdb, hcrowid, hctx, hcintx⟩ :=
            commit_spec s2 hc2
          cases hcm : commit s2 with
          | mk rc s3 =>
            rw [hcm] at hcv hctr hcconn hcdb hcrowid hctx hcintx
            dsimp only at hcv hctr hcconn hcdb hcrowid hctx hcintx
            cases rc with
            | error e => exact absurd hcv (by simp)
            | ok vc =>
                dsimp only
                rw [if_pos (show s3.isInTransaction = true from hcintx.trans hI2)]
                refine ⟨rfl, rfl, hcconn.trans hInv.conn,
                  hcdb.trans hInv.db, hcrowid.trans hInv.rowid, ?_, ?_, ?_, ?_⟩
                · intro v' hv' _
                  refine ⟨hv', ⟨pre, ?_, hcpre⟩⟩
                  simp [hctr]
                · intro v' _ hI2'
                  exact absurd (hI2.symm.trans hI2') (by simp)
                · intro e he
                  exact absurd he (by simp)
                · intro e he
                  exact absurd he (by simp)
        · rw [if_neg hI2]
          have hI2' : s2.isInTransaction = false := by
            cases h2 : s2.isInTransaction
            · rfl
            · exact absurd h2 hI2
          dsimp only
          rw [if_neg (by simp [hI2'])]
          refine ⟨rfl, hI2', hInv.conn, hInv.db, hInv.rowid, ?_, ?_, ?_, ?_⟩
          · intro v' _ hI2''
            exact absurd (hI2'.symm.trans hI2'') (by simp)
          · intro v' hv' _
            exact ⟨hv', rfl⟩
          · intro e he
            exact absurd he (by simp)
          · intro e he
            exact absurd he (by simp)
    | error e =>
        dsimp only
        by_cases hI2 : s2.isInTransaction = true
        · rw [if_pos hI2]
          obtain ⟨hrv, ⟨pre, hrtr, hrpre⟩, hrconn, hrdb, hrrowid, hrtx, hrintx⟩ :=
            rollback_spec s2 hc2
          cases hrm : rollback s2 with
          | mk rr s3 =>
            rw [hrm] at hrv hrtr hrconn hrdb hrrowid hrtx hrintx
            dsimp only at hrv hrtr hrconn hrdb hrrowid hrtx hrintx
            cases rr with
            | error e2 => exact absurd hrv (by simp)
            | ok vr =>
                dsimp only
                rw [if_pos (show s3.isInTransaction = true from hrintx.trans hI2)]
                refine ⟨rfl, rfl, hrconn.trans hInv.conn, hrdb.trans hInv.db,
                  hrrowid.trans hInv.rowid, ?_, ?_, ?_, ?_⟩
                · intro v' hv'
                  exact absurd hv' (by simp)
                · intro v' hv'
                  exact absurd hv' (by simp)
                · intro e' he' _
                  have he'' : e = e' := by simpa using he'
                  subst he''
                  refine ⟨rfl, ⟨pre, ?_, hrpre⟩⟩
                  simp [hrtr]
                · intro e' _ hI2'
                  exact absurd (hI2.symm.trans hI2') (by simp)
        · rw [if_neg hI2]
          have hI2' : s2.isInTransaction = false := by
            cases h2 : s2.isInTransaction
            · rfl
            · exact absurd h2 hI2
          dsimp only
          rw [if_neg (by simp [hI2'])]
          refine ⟨rfl, hI2', hInv.conn, hInv.db, hInv.rowid, ?_, ?_, ?_, ?_⟩
          · intro v' hv'
            exact absurd hv' (by simp)
          · intro v' hv'
            exact absurd hv' (by simp)
          · intro e' _ hI2''
            exact absurd (hI2'.symm.trans hI2'') (by simp)
          · intro e' he' _
            have he'' : e = e' := by simpa using he'
            subst he''
            exact ⟨rfl, rfl⟩

/-! ### Claim theorems -/

/-- C7: for every table name, `insert(table, {})` and `upsert(table, pk, {})`
perform no engine call at all, return no identifier (`undefined`), produce
exactly one error-log entry, and raise no exception. -/
theorem empty_record_skipped (t pk : String) (rep : Bool) (s : St) :
    insert t [] rep s = (Except.ok none,
      { s with trace := s.trace ++ [Ev.logError ("Can't insert empty object into table " ++ t)] }) ∧
    upsert t pk [] s = (Except.ok (), ([],
      { s with trace := s.trace ++ [Ev.logError ("Can't upsert empty object into table " ++ t)] })) := by
  constructor <;> rfl

/-- C5: the statement cache is idempotent: a second `stmt` call with
character-identical text returns the very same handle and leaves the whole
state untouched; the first call prepares at most once; cached entries are
never evicted or replaced. -/
theorem stmt_cache_idempotent (sql : String) (s : St) (hc : s.conn = true) :
    ∃ h, (stmt sql s).1 = Except.ok h ∧
      stmt sql (stmt sql s).2 = (Except.ok h, (stmt sql s).2) ∧
      countEv (isPrepareFor sql) (stmt sql s).2.trace
        ≤ countEv (isPrepareFor sql) s.trace + 1 ∧
      (∀ q0 h0, s.cache.lookup q0 = some h0 → (stmt sql s).2.cache.lookup q0 = some h0) := by
  unfold stmt
  cases hl : s.cache.lookup sql with
  | some v =>
      refine ⟨v, by simp [hl], ?_, by simp only [hl]; omega, fun q0 h0 h => h⟩
      simp only [hl]
  | none =>
      rw [if_pos hc]
      refine ⟨s.next, rfl, ?_, ?_, ?_⟩
      · have hl2 : ((sql, s.next) :: s.cache).lookup sql = some s.next := by
          simp [List.lookup]
        simp only [hl2]
      · simp [countEv_append, countEv_single, isPrepareFor]
      · intro q0 h0 h
        have hq0 : (q0 == sql) = false := by
          rcases h' : q0 == sql with _ | _
          · rfl
          · rw [beq_iff_eq] at h'
            rw [h'] at h
            rw [h] at hl
            cases hl
        simp [List.lookup, hq0, h]

/-- C6 (counterexample state): connection never initialized, a transactional
scope pending its first write. -/
def stNoConnPending : St :=
  { conn := false, cache := [], next := 0, isTransactional := true,
    isInTransaction := false, trace := [], db := fun _ _ => [], rowid := 1 }

/-- C6 counterexample: a write inside a pending transactional scope before
the connection is set does NOT fail with the "DB connection not initialized
yet" error — the lazy `BEGIN` dereferences the unset connection first and
throws a JS `TypeError` instead. -/
theorem execute_pending_scope_wrong_error :
    (execute "INSERT INTO notes (a) VALUES (1)" (Params.positional [Val.num 1]) stNoConnPending).1
      = Except.error (Err.typeError "Cannot read properties of undefined (reading 'prepare')") ∧
    Err.typeError "Cannot read properties of undefined (reading 'prepare')" ≠ Err.connNotInit := by
  constructor
  · rfl
  · decide

/-- C6 (amended): before the connection handle is set (and with the fresh
empty statement cache of a process that never connected), every read helper
fails with `ConnectionNotInitialized` and performs no engine work at all
(the state is returned unchanged); `execute`/`executeScript` do the same
when no transactional scope is pending (or the `BEGIN` was already issued),
but a first write inside a pending transactional scope instead fails with
the `TypeError` of the lazy `BEGIN`'s dereference of the unset connection —
still performing no engine work, though it leaves `isInTransaction` set. -/
theorem uninitialized_connection_errors (q : String) (ps : Params) (s : St)
    (hc : s.conn = false) (hcache : s.cache = []) :
    getRow q ps s = (Except.error Err.connNotInit, s) ∧
    getRows q ps s = (Except.error Err.connNotInit, s) ∧
    getRowOrNull q ps s = (Except.error Err.connNotInit, s) ∧
    getValue q ps s = (Except.error Err.connNotInit, s) ∧
    ((!s.isTransactional || s.isInTransaction) = true →
      execute q ps s = (Except.error Err.connNotInit, s) ∧
      executeScript q s = (Except.error Err.connNotInit, s)) ∧
    (s.isTransactional = true → s.isInTransaction = false →
      execute q ps s =
        (Except.error (Err.typeError "Cannot read properties of undefined (reading 'prepare')"),
         { s with isInTransaction := true }) ∧
      executeScript q s =
        (Except.error (Err.typeError "Cannot read properties of undefined (reading 'prepare')"),
         { s with isInTransaction := true })) := by
  have hwrap : ∀ (α : Type) (f : St → Except Err α × St) (q0 : String),
      wrap f q0 s = (Except.error Err.connNotInit, s) := by
    intro α f q0
    unfold wrap
    rw [if_neg (by simp [hc])]
  have hrows : getRows q ps s = (Except.error Err.connNotInit, s) := hwrap _ _ q
  have hstif : ∀ s0 : St, s0.conn = false → s0.cache = [] → s0.isTransactional = true →
      s0.isInTransaction = false →
      startTransactionIfNecessary s0 =
        (Except.error (Err.typeError "Cannot read properties of undefined (reading 'prepare')"),
         { s0 with isInTransaction := true }) := by
    intro s0 hc0 hch0 hT0 hI0
    unfold startTransactionIfNecessary
    rw [if_neg (by simp [hT0, hI0])]
    dsimp only
    unfold beginTransaction
    rw [stmt_no_conn "BEGIN" { s0 with isInTransaction := true } (by simpa using hc0)
      (by simp [hch0])]
  refine ⟨hwrap _ _ q, hrows, ?_, ?_, ?_, ?_⟩
  · unfold getRowOrNull
    rw [hrows]
  · unfold getValue getRowOrNull
    rw [hrows]
  · intro hcond
    have hstif0 : startTransactionIfNecessary s = (Except.ok (), s) := by
      unfold startTransactionIfNecessary
      rw [if_pos hcond]
    constructor
    · unfold execute
      rw [hstif0]
      exact hwrap _ _ q
    · unfold executeScript
      rw [hstif0]
      exact hwrap _ _ q
  · intro hT hI
    constructor
    · unfold execute
      rw [hstif s hc hcache hT hI]
    · unfold executeScript
      rw [hstif s hc hcache hT hI]

/-- C10: `executeScript` can never execute a script: the source calls `.run`
on the `stmt` cache function itself (a JS function has no `run` property),
so after consulting the transaction flags — and issuing the lazy `BEGIN`
when a scope is pending — the wrapped call always throws, the error is
re-wrapped by `wrap`, and no `.run` of the script text ever reaches the
engine. -/
theorem executeScript_never_runs (q : String) (s : St) (hc : s.conn = true)
    (hq : q ≠ "BEGIN") :
    (executeScript q s).1 = Except.error (Err.wrapErr (Err.typeError "stmt.run is not a function")) ∧
    countEv (isRunFor q) (executeScript q s).2.trace = countEv (isRunFor q) s.trace ∧
    (s.isTransactional = true → s.isInTransaction = false →
      countEv isBegin (executeScript q s).2.trace = countEv isBegin s.trace + 1) ∧
    ((!s.isTransactional || s.isInTransaction) = true →
      countEv isBegin (executeScript q s).2.trace = countEv isBegin s.trace) := by
  obtain ⟨hval, hstep, hintx, hrun⟩ := executeScript_spec q s hc
  refine ⟨hval, hrun hq, ?_, ?_⟩
  · intro hT hI
    have h1 := hstep.beginEq
    rw [hI, hintx, hI, hT] at h1
    simpa using h1
  · intro hcond
    have h1 := hstep.beginEq
    cases hT : s.isTransactional <;> cases hI : s.isInTransaction <;>
      simp [hintx, hT, hI] at h1 hcond ⊢ <;> omega

/-- C8: the read-only helpers (`getRow`, `getRows`, and every helper built
on them, including the chunked `getManyRows`) never issue a physical
`BEGIN` — in any state, transactional scope or not — and leave both CLS
flags untouched; only the write operations (`execute`, `executeMany`,
`executeScript`) trigger the lazy `BEGIN` when a scope is pending. -/
theorem read_helpers_never_begin (q : String) (ps : Params) (psl : List Val) (s : St) :
    countEv isBegin (getRow q ps s).2.trace = countEv isBegin s.trace ∧
    countEv isBegin (getRows q ps s).2.trace = countEv isBegin s.trace ∧
    countEv isBegin (getRowOrNull q ps s).2.trace = countEv isBegin s.trace ∧
    countEv isBegin (getValue q ps s).2.trace = countEv isBegin s.trace ∧
    countEv isBegin (getMap q ps s).2.trace = countEv isBegin s.trace ∧
    countEv isBegin (getColumn q ps s).2.trace = countEv isBegin s.trace ∧
    countEv isBegin (getManyRows q psl s).2.trace = countEv isBegin s.trace ∧
    (getRow q ps s).2.isInTransaction = s.isInTransaction ∧
    (getRow q ps s).2.isTransactional = s.isTransactional ∧
    (getRows q ps s).2.isInTransaction = s.isInTransaction ∧
    (getRows q ps s).2.isTransactional = s.isTransactional ∧
    (getManyRows q psl s).2.isInTransaction = s.isInTransaction ∧
    (s.conn = true → s.isTransactional = true → s.isInTransaction = false →
      q ≠ "BEGIN" → q ≠ "COMMIT" → q ≠ "ROLLBACK" →
      countEv isBegin (execute q ps s).2.trace = countEv isBegin s.trace + 1 ∧
      countEv isBegin (executeMany q psl s).2.trace = countEv isBegin s.trace + 1 ∧
      countEv isBegin (executeScript q s).2.trace = countEv isBegin s.trace + 1) := by
  refine ⟨(getRow_read q ps s).beginEq, (getRows_read q ps s).beginEq,
    (getRowOrNull_read q ps s).beginEq, (getValue_read q ps s).beginEq,
    (getMap_read q ps s).beginEq, (getColumn_read q ps s).beginEq,
    (getManyRows_read q psl s).beginEq,
    (getRow_read q ps s).intx, (getRow_read q ps s).tx,
    (getRows_read q ps s).intx, (getRows_read q ps s).tx,
    (getManyRows_read q psl s).intx, ?_⟩
  intro hc hT hI hqb hqc hqr
  refine ⟨?_, ?_, ?_⟩
  · obtain ⟨_, hstep, hintx, _⟩ := execute_spec q ps s hc hqb hqc hqr
    have h1 := hstep.beginEq
    rw [hI, hintx, hI, hT] at h1
    simpa using h1
  · obtain ⟨_, hstep, hintx⟩ := executeMany_inline q psl s hc
    have h1 := hstep.beginEq
    rw [hI, hintx, hI, hT] at h1
    simpa using h1
  · obtain ⟨_, hstep, hintx, _⟩ := executeScript_spec q s hc
    have h1 := hstep.beginEq
    rw [hI, hintx, hI, hT] at h1
    simpa using h1

/-- The pointwise content of the boolean-normalization loop. -/
theorem normalizeRec_forall₂ (rec : List (String × Val)) :
    List.Forall₂ (fun kv kv' : String × Val =>
      (∃ b, kv.2 = Val.bool b ∧ kv' = (kv.1, Val.num (if b then 1 else 0))) ∨
      ((∀ b, kv.2 ≠ Val.bool b) ∧ kv' = kv)) rec (normalizeRec rec) := by
  induction rec with
  | nil => exact List.Forall₂.nil
  | cons kv rest ih =>
      refine List.Forall₂.cons ?_ ih
      rcases kv with ⟨k, v⟩
      cases v with
      | bool b => exact Or.inl ⟨b, rfl, rfl⟩
      | null => exact Or.inr ⟨(fun b h => nomatch h), rfl⟩
      | num n => exact Or.inr ⟨(fun b h => nomatch h), rfl⟩
      | str sv => exact Or.inr ⟨(fun b h => nomatch h), rfl⟩

/-- C9: for a non-empty record, `upsert` overwrites every strictly-boolean
field of the caller's own record object with 1/0 before binding (an
in-place mutation the caller observes after the call), leaves every
non-boolean field unchanged, and binds exactly that mutated record as the
named parameters of its single INSERT … ON CONFLICT run. -/
theorem upsert_normalizes_caller_record (t pk : String) (rec : List (String × Val)) (s : St)
    (hrec : rec ≠ []) (hc : s.conn = true) :
    (upsert t pk rec s).2.1 = normalizeRec rec ∧
    List.Forall₂ (fun kv kv' : String × Val =>
      (∃ b, kv.2 = Val.bool b ∧ kv' = (kv.1, Val.num (if b then 1 else 0))) ∨
      ((∀ b, kv.2 ≠ Val.bool b) ∧ kv' = kv)) rec (upsert t pk rec s).2.1 ∧
    (upsert t pk rec s).1 = Except.ok () ∧
    (∃ pre, (upsert t pk rec s).2.2.trace =
      s.trace ++ pre ++ [Ev.run (upsertQuery t pk rec) (Params.named (normalizeRec rec))]) := by
  have hlen : ¬((rec.map (fun kv => kv.1)).length = 0) := by
    simp only [List.length_map]
    intro h
    exact hrec (List.length_eq_zero.mp h)
  obtain ⟨hqb, hqc, hqr⟩ := upsertQuery_ne_verbs t pk rec
  obtain ⟨hval, hstep, _, ⟨mid, hmid⟩⟩ := execute_spec (upsertQuery t pk rec)
    (Params.named (normalizeRec rec)) s hc hqb hqc hqr
  unfold upsert
  rw [if_neg hlen]
  dsimp only
  cases hex : execute (upsertQuery t pk rec) (Params.named (normalizeRec rec)) s with
  | mk r1 s1 =>
    rw [hex] at hval hstep hmid
    dsimp only at hval hstep hmid
    cases r1 with
    | error e => exact absurd hval (by simp)
    | ok v =>
        exact ⟨rfl, normalizeRec_forall₂ rec, rfl, ⟨mid, hmid⟩⟩

/-- C2: when the body of the owning `transactional` call raises after a
write opened the physical transaction, exactly one `ROLLBACK` (and no
`COMMIT`) is issued and the very same error object is re-raised; and on
every exit path both CLS flags are back to false with the connection and
engine untouched, so a subsequent independent transactional call starts
clean. -/
theorem transactional_error_rollback_cleanup (p : Prog) (s : St) (hw : p.wf = true)
    (hc : s.conn = true) (hT : s.isTransactional = false) (hI : s.isInTransaction = false) :
    (transactional (fun s0 => runProg p s0) s).2.isTransactional = false ∧
    (transactional (fun s0 => runProg p s0) s).2.isInTransaction = false ∧
    (transactional (fun s0 => runProg p s0) s).2.conn = s.conn ∧
    (transactional (fun s0 => runProg p s0) s).2.db = s.db ∧
    (∀ e, (runProg p { s with isTransactional := true }).1 = Except.error e →
      (transactional (fun s0 => runProg p s0) s).1 = Except.error e) ∧
    (∀ e, (runProg p { s with isTransactional := true }).1 = Except.error e →
      (runProg p { s with isTransactional := true }).2.isInTransaction = true →
      countEv isRollback (transactional (fun s0 => runProg p s0) s).2.trace
          = countEv isRollback s.trace + 1 ∧
      countEv isCommit (transactional (fun s0 => runProg p s0) s).2.trace
          = countEv isCommit s.trace) := by
  obtain ⟨hfT, hfI, hfc, hfd, _, _, _, herr1, herr0⟩ := transactional_run_spec p s hw hc hT
  have hInv := runProg_inline p { s with isTransactional := true } hw (by simpa using hc) rfl
  refine ⟨hfT, hfI, hfc, hfd, ?_, ?_⟩
  · intro e he
    by_cases hI2 : (runProg p { s with isTransactional := true }).2.isInTransaction = true
    · exact (herr1 e he hI2).1
    · have hI2' : (runProg p { s with isTransactional := true }).2.isInTransaction = false := by
        cases h2 : (runProg p { s with isTransactional := true }).2.isInTransaction
        · rfl
        · exact absurd h2 hI2
      exact (herr0 e he hI2').1
  · intro e he hI2
    obtain ⟨_, pre, htr, hpre⟩ := herr1 e he hI2
    have hrb := hInv.rollbackEq
    have hcm := hInv.commitEq
    dsimp only at hrb hcm
    constructor <;>
      rcases hpre with hp | hp <;> subst hp <;>
        simp [htr, countEv_append, countEv_cons, countEv_nil, isRollback, isCommit, hrb, hcm]

/-- C4: an owning `transactional` call whose scope issued a `BEGIN` and
whose body returned normally dispatches exactly one client notification,
strictly after the `COMMIT` (the trace ends `… COMMIT, ping`); no
notification is dispatched on rollback or when no write occurred. The
dispatch itself is modelled from the spec as fire-and-forget (`ws.js` is
not among the sources), so its failure cannot fail the committed
transaction. -/
theorem transactional_ping_after_commit (p : Prog) (s : St) (hw : p.wf = true)
    (hc : s.conn = true) (hT : s.isTransactional = false) (hI : s.isInTransaction = false) :
    (∀ v, (runProg p { s with isTransactional := true }).1 = Except.ok v →
      (runProg p { s with isTransactional := true }).2.isInTransaction = true →
      countEv isPing (transactional (fun s0 => runProg p s0) s).2.trace
          = countEv isPing s.trace + 1 ∧
      ∃ pre, (transactional (fun s0 => runProg p s0) s).2.trace =
          (runProg p { s with isTransactional := true }).2.trace ++ pre
            ++ [Ev.run "COMMIT" (Params.positional []), Ev.ping] ∧
        (pre = [] ∨ pre = [Ev.prepare "COMMIT"])) ∧
    (∀ v, (runProg p { s with isTransactional := true }).1 = Except.ok v →
      (runProg p { s with isTransactional := true }).2.isInTransaction = false →
      countEv isPing (transactional (fun s0 => runProg p s0) s).2.trace
          = countEv isPing s.trace ∧
      countEv isCommit (transactional (fun s0 => runProg p s0) s).2.trace
          = countEv isCommit s.trace) ∧
    (∀ e, (runProg p { s with isTransactional := true }).1 = Except.error e →
      countEv isPing (transactional (fun s0 => runProg p s0) s).2.trace
          = countEv isPing s.trace) := by
  obtain ⟨_, _, _, _, _, hok1, hok0, herr1, herr0⟩ := transactional_run_spec p s hw hc hT
  have hInv := runProg_inline p { s with isTransactional := true } hw (by simpa using hc) rfl
  have hpg := hInv.pingEq
  have hcm := hInv.commitEq
  dsimp only at hpg hcm
  refine ⟨?_, ?_, ?_⟩
  · intro v hv hI2
    obtain ⟨_, pre, htr, hpre⟩ := hok1 v hv hI2
    refine ⟨?_, ⟨pre, htr, hpre⟩⟩
    rcases hpre with hp | hp <;> subst hp <;>
      simp [htr, countEv_append, countEv_cons, countEv_nil, isPing, hpg]
  · intro v hv hI2
    obtain ⟨_, htr⟩ := hok0 v hv hI2
    rw [htr]
    exact ⟨hpg, hcm⟩
  · intro e he
    by_cases hI2 : (runProg p { s with isTransactional := true }).2.isInTransaction = true
    · obtain ⟨_, pre, htr, hpre⟩ := herr1 e he hI2
      rcases hpre with hp | hp <;> subst hp <;>
        simp [htr, countEv_append, countEv_cons, countEv_nil, isPing, hpg]
    · have hI2' : (runProg p { s with isTransactional := true }).2.isInTransaction = false := by
        cases h2 : (runProg p { s with isTransactional := true }).2.isInTransaction
        · rfl
        · exact absurd h2 hI2
      obtain ⟨_, htr⟩ := herr0 e he hI2'
      rw [htr]
      exact hpg

/-- `transactional` only ever runs its body at the marked state, so bodies
that agree there are interchangeable. -/
theorem transactional_congr {α : Type} (f g : St → Except Err α × St) (s : St)
    (hT : s.isTransactional = false)
    (h : f { s with isTransactional := true } = g { s with isTransactional := true }) :
    transactional f s = transactional g s := by
  unfold transactional
  rw [if_neg (by simp [hT]), if_neg (by simp [hT])]
  dsimp only
  rw [h]

/-- C1: nested `transactional(() => transactional(inner))` behaves exactly
like the single call — the inner call runs its body inline (it is not a new
scope) — and the whole nest issues at most one physical `BEGIN` and at most
one `COMMIT`/`ROLLBACK`, with the `COMMIT`/`ROLLBACK` present exactly when
the `BEGIN` is (one transaction pair, never two). -/
theorem nested_transactional_single_transaction (inner : Prog) (s : St)
    (hw : inner.wf = true) (hc : s.conn = true)
    (hT : s.isTransactional = false) (hI : s.isInTransaction = false) :
    transactional (fun s0 => transactional (fun s1 => runProg inner s1) s0) s
      = transactional (fun s1 => runProg inner s1) s ∧
    (∀ s0 : St, s0.isTransactional = true →
      transactional (fun s1 => runProg inner s1) s0 = runProg inner s0) ∧
    countEv isBegin (transactional (fun s1 => runProg inner s1) s).2.trace
        ≤ countEv isBegin s.trace + 1 ∧
    countEv isCommit (transactional (fun s1 => runProg inner s1) s).2.trace
        + countEv isRollback (transactional (fun s1 => runProg inner s1) s).2.trace
      ≤ countEv isCommit s.trace + countEv isRollback s.trace + 1 ∧
    (countEv isBegin (transactional (fun s1 => runProg inner s1) s).2.trace
        = countEv isBegin s.trace + 1 ↔
      countEv isCommit (transactional (fun s1 => runProg inner s1) s).2.trace
        + countEv isRollback (transactional (fun s1 => runProg inner s1) s).2.trace
        = countEv isCommit s.trace + countEv isRollback s.trace + 1) ∧
    ((runProg inner { s with isTransactional := true }).2.isInTransaction = true →
      countEv isBegin (transactional (fun s1 => runProg inner s1) s).2.trace
        = countEv isBegin s.trace + 1) := by
  have hinline : ∀ s0 : St, s0.isTransactional = true →
      transactional (fun s1 => runProg inner s1) s0 = runProg inner s0 := by
    intro s0 h
    unfold transactional
    rw [if_pos h]
  have hnest : transactional (fun s0 => transactional (fun s1 => runProg inner s1) s0) s
      = transactional (fun s1 => runProg inner s1) s :=
    transactional_congr _ _ s hT (hinline _ rfl)
  obtain ⟨_, _, _, _, _, hok1, hok0, herr1, herr0⟩ := transactional_run_spec inner s hw hc hT
  have hInv := runProg_inline inner { s with isTransactional := true } hw (by simpa using hc) rfl
  have hbg := hInv.beginEq
  have hcm := hInv.commitEq
  have hrb := hInv.rollbackEq
  dsimp only at hbg hcm hrb
  have main :
      countEv isBegin (transactional (fun s1 => runProg inner s1) s).2.trace
          ≤ countEv isBegin s.trace + 1 ∧
      countEv isCommit (transactional (fun s1 => runProg inner s1) s).2.trace
          + countEv isRollback (transactional (fun s1 => runProg inner s1) s).2.trace
        ≤ countEv isCommit s.trace + countEv isRollback s.trace + 1 ∧
      (countEv isBegin (transactional (fun s1 => runProg inner s1) s).2.trace
          = countEv isBegin s.trace + 1 ↔
        countEv isCommit (transactional (fun s1 => runProg inner s1) s).2.trace
          + countEv isRollback (transactional (fun s1 => runProg inner s1) s).2.trace
          = countEv isCommit s.trace + countEv isRollback s.trace + 1) ∧
      ((runProg inner { s with isTransactional := true }).2.isInTransaction = true →
        countEv isBegin (transactional (fun s1 => runProg inner s1) s).2.trace
          = countEv isBegin s.trace + 1) := by
    cases hb : runProg inner { s with isTransactional := true } with
    | mk r s2 =>
      rw [hb] at hok1 hok0 herr1 herr0 hbg hcm hrb
      dsimp only at hok1 hok0 herr1 herr0 hbg hcm hrb
      simp only [hI, Bool.false_eq_true, if_false, Nat.add_zero] at hbg
      cases r with
      | ok v =>
          by_cases hI2 : s2.isInTransaction = true
          · obtain ⟨_, pre, htr, hpre⟩ := hok1 v rfl hI2
            simp only [hI2, if_true] at hbg
            rw [htr]
            rcases hpre with hp | hp <;> subst hp <;>
              simp [countEv_append, countEv_cons, countEv_nil, isBegin, isCommit, isRollback] <;>
                omega
          · have hI2' : s2.isInTransaction = false := by
              cases h2 : s2.isInTransaction
              · rfl
              · exact absurd h2 hI2
            obtain ⟨_, htr⟩ := hok0 v rfl hI2'
            simp only [hI2', Bool.false_eq_true, if_false, Nat.add_zero] at hbg
            rw [htr]
            refine ⟨by omega, by omega, by omega, fun hw2 => absurd hw2 (by simp [hI2'])⟩
      | error e =>
          by_cases hI2 : s2.isInTransaction = true
          · obtain ⟨_, pre, htr, hpre⟩ := herr1 e rfl hI2
            simp only [hI2, if_true] at hbg
            rw [htr]
            rcases hpre with hp | hp <;> subst hp <;>
              simp [countEv_append, countEv_cons, countEv_nil, isBegin, isCommit, isRollback] <;>
                omega
          · have hI2' : s2.isInTransaction = false := by
              cases h2 : s2.isInTransaction
              · rfl
              · exact absurd h2 hI2
            obtain ⟨_, htr⟩ := herr0 e rfl hI2'
            simp only [hI2', Bool.false_eq_true, if_false, Nat.add_zero] at hbg
            rw [htr]
            refine ⟨by omega, by omega, by omega, fun hw2 => absurd hw2 (by simp [hI2'])⟩
  exact ⟨hnest, hinline, main.1, main.2.1, main.2.2.1, main.2.2.2⟩

/-! ### Chunked executor (C3) -/

theorem getManyRowsLoop_nil (q : String) (acc : List Row) (s : St) :
    getManyRowsLoop q [] acc s = (Except.ok acc, s) := by
  rw [getManyRowsLoop]
  simp

theorem getManyRowsLoop_step (q : String) (params : List Val) (acc : List Row) (s : St)
    (hc : s.conn = true) (hne : ¬params.length = 0) :
    getManyRowsLoop q params acc s =
      getManyRowsLoop q (params.drop (min params.length PARAM_LIMIT))
        (acc ++ s.db (batchQuery q (min params.length PARAM_LIMIT))
          (Params.named (mkParamsObj (params.take (min params.length PARAM_LIMIT)))))
        (getRows (batchQuery q (min params.length PARAM_LIMIT))
          (Params.named (mkParamsObj (params.take (min params.length PARAM_LIMIT)))) s).2 := by
  rw [getManyRowsLoop]
  rw [dif_neg hne]
  dsimp only
  have htk : (params.take (min params.length PARAM_LIMIT)).length
      = min params.length PARAM_LIMIT := by
    rw [List.length_take]
    omega
  rw [htk]
  obtain ⟨hval, _⟩ := getRows_spec (batchQuery q (min params.length PARAM_LIMIT))
    (Params.named (mkParamsObj (params.take (min params.length PARAM_LIMIT)))) s hc
  cases hgr : getRows (batchQuery q (min params.length PARAM_LIMIT))
      (Params.named (mkParamsObj (params.take (min params.length PARAM_LIMIT)))) s with
  | mk r2 s2 =>
    rw [hgr] at hval
    dsimp only at hval
    cases r2 with
    | error e => exact absurd hval (by simp)
    | ok rows =>
        have hrows : rows = s.db (batchQuery q (min params.length PARAM_LIMIT))
            (Params.named (mkParamsObj (params.take (min params.length PARAM_LIMIT)))) := by
          simpa using hval
        rw [hrows]

/-- The lazy-`BEGIN` step adds no `.all` execution. -/
theorem startTransactionIfNecessary_filter_all (s : St) (hc : s.conn = true) :
    (startTransactionIfNecessary s).2.trace.filter isAll = s.trace.filter isAll := by
  unfold startTransactionIfNecessary
  by_cases hcond : (!s.isTransactional || s.isInTransaction) = true
  · rw [if_pos hcond]
  · rw [if_neg hcond]
    dsimp only
    obtain ⟨hv, ⟨pre, htr, hpre⟩, _⟩ :=
      beginTransaction_spec { s with isInTransaction := true } (by simpa using hc)
    cases hbt : beginTransaction { s with isInTransaction := true } with
    | mk rb sb =>
      rw [hbt] at hv htr
      dsimp only at hv htr
      cases rb with
      | error e => exact absurd hv (by simp)
      | ok v =>
          dsimp only
          rcases hpre with hp | hp <;> subst hp <;>
            simp [htr, List.filter_append, isAll]

/-- Fresh connected state used for concrete checks: connection set, empty
cache, clean flags, empty trace, an engine oracle returning no rows. -/
def st0 : St :=
  { conn := true, cache := [], next := 0, isTransactional := false,
    isInTransaction := false, trace := [], db := fun _ _ => [], rowid := 1 }

/-- C3 counterexample: `executeMany` does not return the result sequence —
the JS function lacks a `return`, so even for the empty parameter list the
caller observes `undefined` (`none`), not the empty sequence the claim
promises. -/
theorem executeMany_returns_undefined :
    (executeMany "SELECT noteId FROM notes WHERE noteId IN (???)" [] st0).1 = Except.ok none ∧
    (Except.ok none : Except Err (Option (List Row))) ≠ Except.ok (some []) := by
  constructor
  · unfold executeMany startTransactionIfNecessary
    rw [if_pos (show (!st0.isTransactional || st0.isInTransaction) = true from rfl)]
    dsimp only
    rw [show getManyRows "SELECT noteId FROM notes WHERE noteId IN (???)" [] st0
      = getManyRowsLoop "SELECT noteId FROM notes WHERE noteId IN (???)" [] [] st0 from rfl]
    rw [getManyRowsLoop_nil]
  · simp

/-- C3 (amended): with `PARAM_LIMIT = 900` and a 1500-element flat parameter
list, `executeMany` issues exactly two batched `.all` executions — first the
900-parameter batch, then the 600-parameter batch — and the underlying
`getManyRows` returns the two batches' rows concatenated in input order;
`executeMany` itself discards them and returns `undefined`. For the empty
list `getManyRows` makes no engine call and returns the empty sequence, and
`executeMany` (outside a pending transactional scope) makes no engine call
and returns `undefined`. -/
theorem executeMany_chunks_1500 (q : String) (params : List Val) (s : St)
    (hc : s.conn = true) (hlen : params.length = 1500) :
    (executeMany q params s).1 = Except.ok none ∧
    (executeMany q params s).2.trace.filter isAll
      = s.trace.filter isAll
        ++ [Ev.all (batchQuery q 900) (Params.named (mkParamsObj (params.take 900))),
            Ev.all (batchQuery q 600) (Params.named (mkParamsObj (params.drop 900)))] ∧
    (mkParamsObj (params.take 900)).length = 900 ∧
    (mkParamsObj (params.drop 900)).length = 600 ∧
    (getManyRows q params s).1
      = Except.ok (s.db (batchQuery q 900) (Params.named (mkParamsObj (params.take 900)))
          ++ s.db (batchQuery q 600) (Params.named (mkParamsObj (params.drop 900)))) ∧
    (∀ (q0 : String) (s0 : St), getManyRows q0 ([] : List Val) s0 = (Except.ok [], s0)) ∧
    (∀ (q0 : String) (s0 : St), s0.isTransactional = false →
      executeMany q0 ([] : List Val) s0 = (Except.ok none, s0)) := by
  have e1 : min params.length PARAM_LIMIT = 900 := by
    rw [hlen]
    decide
  have hd1 : (params.drop 900).length = 600 := by
    simp [List.length_drop, hlen]
  have e2 : min (params.drop 900).length PARAM_LIMIT = 600 := by
    rw [hd1]
    decide
  have ht2 : (params.drop 900).take 600 = params.drop 900 :=
    List.take_of_length_le (by rw [hd1])
  have hdd : (params.drop 900).drop 600 = [] :=
    List.drop_eq_nil_of_le (by rw [hd1])
  have hloop : ∀ s0 : St, s0.conn = true → s0.db = s.db →
      (getManyRowsLoop q params [] s0).1
        = Except.ok (s.db (batchQuery q 900) (Params.named (mkParamsObj (params.take 900)))
            ++ s.db (batchQuery q 600) (Params.named (mkParamsObj (params.drop 900)))) ∧
      (getManyRowsLoop q params [] s0).2.trace.filter isAll
        = s0.trace.filter isAll
          ++ [Ev.all (batchQuery q 900) (Params.named (mkParamsObj (params.take 900))),
              Ev.all (batchQuery q 600) (Params.named (mkParamsObj (params.drop 900)))] := by
    intro s0 hc0 hdb0
    rw [getManyRowsLoop_step q params [] s0 hc0 (by rw [hlen]; omega)]
    rw [e1]
    have hr1 := getRows_read (batchQuery q 900)
      (Params.named (mkParamsObj (params.take 900))) s0
    obtain ⟨_, ⟨pre1, htr1, hpre1⟩⟩ := getRows_spec (batchQuery q 900)
      (Params.named (mkParamsObj (params.take 900))) s0 hc0
    have hc1 : (getRows (batchQuery q 900)
        (Params.named (mkParamsObj (params.take 900))) s0).2.conn = true :=
      hr1.conn.trans hc0
    have hdb1 : (getRows (batchQuery q 900)
        (Params.named (mkParamsObj (params.take 900))) s0).2.db = s.db :=
      hr1.db.trans hdb0
    rw [getManyRowsLoop_step q (params.drop 900) _ _ hc1 (by rw [hd1]; omega)]
    rw [e2, ht2, hdd]
    have hr2 := getRows_read (batchQuery q 600)
      (Params.named (mkParamsObj (params.drop 900)))
      (getRows (batchQuery q 900) (Params.named (mkParamsObj (params.take 900))) s0).2
    obtain ⟨_, ⟨pre2, htr2, hpre2⟩⟩ := getRows_spec (batchQuery q 600)
      (Params.named (mkParamsObj (params.drop 900)))
      (getRows (batchQuery q 900) (Params.named (mkParamsObj (params.take 900))) s0).2 hc1
    rw [getManyRowsLoop_nil]
    constructor
    · dsimp only
      rw [hdb0, hdb1]
      simp
    · dsimp only
      rw [htr2, htr1]
      rcases hpre1 with hp1 | hp1 <;> rcases hpre2 with hp2 | hp2 <;>
        subst hp1 <;> subst hp2 <;>
          simp [List.filter_append, isAll, hdb1]
  refine ⟨?_, ?_, ?_, ?_, ?_, ?_, ?_⟩
  · unfold executeMany
    obtain ⟨hr0, hstep0, _, _⟩ := startTransactionIfNecessary_spec s hc
    cases hst : startTransactionIfNecessary s with
    | mk r0 s1 =>
      rw [hst] at hr0 hstep0
      dsimp only at hr0 hstep0
      cases r0 with
      | error e => exact absurd hr0 (by simp)
      | ok u =>
          dsimp only
          obtain ⟨hv, _⟩ := hloop s1 (hstep0.conn.trans hc) hstep0.db
          cases hgm : getManyRows q params s1 with
          | mk r1 s2 =>
            rw [show getManyRowsLoop q params [] s1 = getManyRows q params s1 from rfl] at hv
            rw [hgm] at hv
            dsimp only at hv
            cases r1 with
            | error e => exact absurd hv (by simp)
            | ok rs => rfl
  · unfold executeMany
    obtain ⟨hr0, hstep0, _, _⟩ := startTransactionIfNecessary_spec s hc
    have hfa := startTransactionIfNecessary_filter_all s hc
    cases hst : startTransactionIfNecessary s with
    | mk r0 s1 =>
      rw [hst] at hr0 hstep0 hfa
      dsimp only at hr0 hstep0 hfa
      cases r0 with
      | error e => exact absurd hr0 (by simp)
      | ok u =>
          dsimp only
          obtain ⟨hv, htrf⟩ := hloop s1 (hstep0.conn.trans hc) hstep0.db
          cases hgm : getManyRows q params s1 with
          | mk r1 s2 =>
            rw [show getManyRowsLoop q params [] s1 = getManyRows q params s1 from rfl] at hv htrf
            rw [hgm] at hv htrf
            dsimp only at hv htrf
            cases r1 with
            | error e => exact absurd hv (by simp)
            | ok rs =>
                dsimp only
                rw [htrf, hfa]
  · simp [mkParamsObj, List.length_take, hlen]
  · simp [mkParamsObj, List.length_drop, hlen]
  · obtain ⟨hv, _⟩ := hloop s hc rfl
    exact hv
  · intro q0 s0
    exact getManyRowsLoop_nil q0 [] s0
  · intro q0 s0 h0
    unfold executeMany startTransactionIfNecessary
    rw [if_pos (by simp [h0])]
    dsimp only
    rw [show getManyRows q0 ([] : List Val) s0 = getManyRowsLoop q0 [] [] s0 from rfl]
    rw [getManyRowsLoop_nil]

/-! ### Concrete instances for witnesses -/

/-- A body that performs one write and returns normally. -/
def progWrite : Prog :=
  Prog.executeP "UPDATE notes SET title = 'x'" (Params.positional []) (Prog.ret (Val.num 0))

/-- A body that performs one write and then raises. -/
def progFail : Prog :=
  Prog.executeP "UPDATE notes SET title = 'x'" (Params.positional []) (Prog.raiseE 7)

/-- `st0` inside a pending transactional scope (flag set, no write yet). -/
def stPending : St := { st0 with isTransactional := true }

/-- A concrete 1500-element flat parameter list. -/
def params1500 : List Val := List.replicate 1500 (Val.num 0)

theorem nested_transactional_single_transaction_witness :
    transactional (fun s0 => transactional (fun s1 => runProg progWrite s1) s0) st0
      = transactional (fun s1 => runProg progWrite s1) st0 ∧
    countEv isBegin (transactional (fun s1 => runProg progWrite s1) st0).2.trace
      ≤ countEv isBegin st0.trace + 1 := by
  have h := nested_transactional_single_transaction progWrite st0 (by decide) rfl rfl rfl
  exact ⟨h.1, h.2.2.1⟩

theorem transactional_error_rollback_cleanup_witness :
    (transactional (fun s0 => runProg progFail s0) st0).1 = Except.error (Err.userErr 7) ∧
    (transactional (fun s0 => runProg progFail s0) st0).2.isTransactional = false ∧
    (transactional (fun s0 => runProg progFail s0) st0).2.isInTransaction = false ∧
    countEv isRollback (transactional (fun s0 => runProg progFail s0) st0).2.trace = 1 := by
  have h := transactional_error_rollback_cleanup progFail st0 (by decide) rfl rfl rfl
  have he : (runProg progFail { st0 with isTransactional := true }).1
      = Except.error (Err.userErr 7) := rfl
  have hi : (runProg progFail { st0 with isTransactional := true }).2.isInTransaction = true := rfl
  refine ⟨h.2.2.2.2.1 _ he, h.1, h.2.1, ?_⟩
  have hcnt := (h.2.2.2.2.2 _ he hi).1
  have h0 : countEv isRollback st0.trace = 0 := rfl
  omega

theorem executeMany_chunks_1500_witness :
    (executeMany "SELECT id FROM notes WHERE noteId IN (???)" params1500 st0).1
      = Except.ok none ∧
    (mkParamsObj (params1500.take 900)).length = 900 ∧
    (mkParamsObj (params1500.drop 900)).length = 600 := by
  have h := executeMany_chunks_1500 "SELECT id FROM notes WHERE noteId IN (???)"
    params1500 st0 rfl (by unfold params1500; rw [List.length_replicate])
  exact ⟨h.1, h.2.2.1, h.2.2.2.1⟩

theorem transactional_ping_after_commit_witness :
    countEv isPing (transactional (fun s0 => runProg progWrite s0) st0).2.trace = 1 := by
  have h := transactional_ping_after_commit progWrite st0 (by decide) rfl rfl rfl
  have hv : (runProg progWrite { st0 with isTransactional := true }).1
      = Except.ok (Val.num 0) := rfl
  have hi : (runProg progWrite { st0 with isTransactional := true }).2.isInTransaction = true := rfl
  have hc1 := (h.1 _ hv hi).1
  have h0 : countEv isPing st0.trace = 0 := rfl
  omega

theorem stmt_cache_idempotent_witness :
    stmt "SELECT 1" (stmt "SELECT 1" st0).2
      = ((stmt "SELECT 1" st0).1, (stmt "SELECT 1" st0).2) := by
  obtain ⟨h, h1, h2, _, _⟩ := stmt_cache_idempotent "SELECT 1" st0 rfl
  rw [h2, h1]

theorem uninitialized_connection_errors_witness :
    getRow "SELECT 1" (Params.positional []) stNoConnPending
      = (Except.error Err.connNotInit, stNoConnPending) ∧
    execute "INSERT INTO t (a) VALUES (1)" (Params.positional []) stNoConnPending
      = (Except.error (Err.typeError "Cannot read properties of undefined (reading 'prepare')"),
         { stNoConnPending with isInTransaction := true }) := by
  have h := uninitialized_connection_errors "SELECT 1" (Params.positional [])
    stNoConnPending rfl rfl
  have h2 := uninitialized_connection_errors "INSERT INTO t (a) VALUES (1)"
    (Params.positional []) stNoConnPending rfl rfl
  exact ⟨h.1, (h2.2.2.2.2.2 rfl rfl).1⟩

theorem read_helpers_never_begin_witness :
    countEv isBegin (getRow "SELECT 1" (Params.positional []) stPending).2.trace
      = countEv isBegin stPending.trace ∧
    countEv isBegin (execute "UPDATE notes SET a = 1" (Params.positional []) stPending).2.trace
      = countEv isBegin stPending.trace + 1 := by
  have h2 := read_helpers_never_begin "SELECT 1" (Params.positional []) [] stPending
  have h := read_helpers_never_begin "UPDATE notes SET a = 1" (Params.positional []) [] stPending
  refine ⟨h2.1, ?_⟩
  exact (h.2.2.2.2.2.2.2.2.2.2.2.2 rfl rfl rfl (by decide) (by decide) (by decide)).1

/-- Concrete record with a boolean field and a non-boolean field. -/
def recW : List (String × Val) := [("isProtected", Val.bool true), ("title", Val.str "x")]

theorem upsert_normalizes_caller_record_witness :
    (upsert "notes" "noteId" recW st0).2.1
      = [("isProtected", Val.num 1), ("title", Val.str "x")] ∧
    (upsert "notes" "noteId" recW st0).1 = Except.ok () := by
  have h := upsert_normalizes_caller_record "notes" "noteId" recW st0 (by decide) rfl
  refine ⟨?_, h.2.2.1⟩
  rw [h.1]
  rfl

theorem executeScript_never_runs_witness :
    (executeScript "CREATE TABLE t (a)" st0).1
      = Except.error (Err.wrapErr (Err.typeError "stmt.run is not a function")) ∧
    countEv isBegin (executeScript "CREATE TABLE t (a)" st0).2.trace
      = countEv isBegin st0.trace := by
  have h := executeScript_never_runs "CREATE TABLE t (a)" st0 rfl (by decide)
  exact ⟨h.1, h.2.2.2 rfl⟩

end TriliumSql
